import Mathlib

/-!
The dataset service of ml_microservice_sample, over a document store.

A shallow embedding of `main.go` and `dao/mongodb_dao.go`.

The Go program is glue over three libraries (the MongoDB driver, `net/http` with
`encoding/json`, and the gorilla `mux` router).  The embedding keeps the control flow of
every function of the repository statement for statement, and models the libraries by
explicit state passing:

* `World` is the document store together with the number of clients that are connected
  and not yet disconnected, and the trace of driver calls made so far;
* `Env` is the fault scenario of one call: which driver operations fail for reasons
  outside the store (bad endpoint, network, the ten second deadline);
* `ResponseWriter` is what a handler has written to its `http.ResponseWriter`;
* JSON bodies are kept as values (`Json`), not as text;
* a document is decoded as the driver's struct decoder does it: element by element in
  order, into the field whose tag is the key in any letter case, numbers bounded by the
  range of `int`.

Go's `int` is the 64-bit one.  Writes to the loggers have no effect on the store, the
connections or the response and are left out.  A deferred call is written where it runs:
after the body of the function, on the returns that follow the `defer` statement.
-/

set_option autoImplicit false

namespace MlService

/-! ## Data model -/

/-- The `Dataset` struct of `main.go`. -/
structure Dataset where
  ID : Int
  Name : String
  Data : String
  DownloadLink : String
  ShortDescription : String
  LongDescription : String
  deriving DecidableEq, Repr

/-- Go's `int` on a 64-bit platform: the integers from -2^63 to 2^63 - 1. -/
abbrev GoInt := { n : Int // -9223372036854775808 ≤ n ∧ n ≤ 9223372036854775807 }

/-- A BSON value as far as the `Dataset` shape and a filter on a Go `int` can tell values
apart:
* `int n` is a number of a type the driver decodes into an `int` (an int32, an int64, a
  double) that equals the integer `n` of the int64 range: a filter on the number `n`
  matches it, and it decodes into an `int` as `n`;
* `decimal n` is a decimal128 that equals the integer `n` of the int64 range: a filter on
  the number `n` matches it, and the driver decodes it neither into an `int` nor into a
  `string`;
* `str s` is a string, which decodes into a `string` as `s`;
* `other tag asInt asString` is any other value (null, a boolean, an object id, an array,
  a fractional number, a number outside the int64 range, ...), with what the driver
  converts it to when it decodes it into an `int` and into a `string`, if it converts it
  at all; no filter on a Go `int` matches it.  The tag keeps two such values apart. -/
inductive BsonValue where
  | int (n : GoInt)
  | decimal (n : GoInt)
  | str (s : String)
  | other (tag : Nat) (asInt : Option GoInt) (asString : Option String)
  deriving DecidableEq, Repr

/-- The integer a number of the int64 range equals. -/
def BsonValue.number? : BsonValue → Option Int
  | .int n => some n.val
  | .decimal n => some n.val
  | _ => none

/-- Whether the store takes two values for the same `_id`: numbers compare by value,
whatever their type. -/
def BsonValue.sameKey (a b : BsonValue) : Bool :=
  match a.number?, b.number? with
  | some x, some y => x == y
  | none, none => a == b
  | _, _ => false

/-- A BSON document: its elements in order. -/
abbrev Document := List (String × BsonValue)

/-- The value a document has under a key, as the store sees it: keys are compared as they
are spelled. -/
def Document.lookup (d : Document) (key : String) : Option BsonValue :=
  match d.find? (fun kv => kv.1 == key) with
  | some kv => some kv.2
  | none => none

/-- Whether the filter `_id = id` matches the document. -/
def Document.hasID (d : Document) (id : Int) : Bool :=
  match d.lookup "_id" with
  | some v => v.number? == some id
  | none => false

/-- A Go `error` value.  `ErrNoDocuments` is the driver's sentinel `mongo.ErrNoDocuments`;
every other error is identified with its message. -/
inductive GoError where
  | ErrNoDocuments
  | msg (text : String)
  deriving DecidableEq, Repr

/-- The text of an error, as the verb `%v` and the method `Error()` give it. -/
def GoError.Error : GoError → String
  | .ErrNoDocuments => "mongo: no documents in result"
  | .msg t => t

/-- The call `fmt.Errorf(format, err)` for a format that ends in `%v`. -/
def Errorf (pre : String) (err : GoError) : GoError :=
  .msg (pre ++ err.Error)

/-! ## The document store -/

/-- A collection of a database. -/
structure Collection where
  name : String
  docs : List Document
  deriving DecidableEq, Repr

/-- A database: its collections. -/
structure Database where
  name : String
  colls : List Collection
  deriving DecidableEq, Repr

/-- The store: the databases visible to the credentials in use. -/
abbrev Store := List Database

/-- The collections of a database; none when the database does not exist. -/
def Store.collections (s : Store) (db : String) : List Collection :=
  match s.find? (fun d => d.name == db) with
  | some d => d.colls
  | none => []

/-- Whether a collection exists. -/
def Store.hasCollection (s : Store) (db coll : String) : Bool :=
  (s.collections db).any (fun c => c.name == coll)

/-- The documents of a collection in the order the store delivers them; none when the
collection does not exist. -/
def Store.documents (s : Store) (db coll : String) : List Document :=
  match (s.collections db).find? (fun c => c.name == coll) with
  | some c => c.docs
  | none => []

/-- Replace the collections of a database, adding the database when it is new. -/
def Store.setCollections (s : Store) (db : String) (cs : List Collection) : Store :=
  if s.any (fun d => d.name == db) then
    s.map (fun d => if d.name == db then { d with colls := cs } else d)
  else
    s ++ [{ name := db, colls := cs }]

/-- Add an empty collection to a database. -/
def Store.addCollection (s : Store) (db coll : String) : Store :=
  s.setCollections db (s.collections db ++ [{ name := coll, docs := [] }])

/-- Append a document to a collection, which is created when it does not exist. -/
def Store.addDocument (s : Store) (db coll : String) (doc : Document) : Store :=
  if s.hasCollection db coll then
    s.setCollections db
      ((s.collections db).map (fun c =>
        if c.name == coll then { c with docs := c.docs ++ [doc] } else c))
  else
    s.setCollections db (s.collections db ++ [{ name := coll, docs := [doc] }])

/-- The total number of documents held by the store. -/
def Store.documentCount (s : Store) : Nat :=
  (s.map (fun d => (d.colls.map (fun c => c.docs.length)).sum)).sum

/-- The total number of collections held by the store. -/
def Store.collectionCount (s : Store) : Nat :=
  (s.map (fun d => d.colls.length)).sum

/-! ## The driver -/

/-- A driver call, as recorded in the trace. -/
inductive Event where
  | Connect
  | Ping
  | Disconnect
  | ListDatabaseNames (name : String)
  | ListCollectionNames (db name : String)
  | CreateCollection (db coll : String)
  | InsertOne (db coll : String)
  | Find (db coll : String)
  | CursorClose
  | FindOne (db coll : String) (id : Int)
  deriving DecidableEq, Repr

/-- The fault scenario of one call: for each driver operation, the error it fails with for
a reason outside the store, if any.  `cursorErr = some (n, e)` makes the cursor of `Find`
fail with `e` once it has delivered `n` documents. -/
structure Env where
  connectErr : Option String
  pingErr : Option String
  listDatabasesErr : Option String
  listCollectionsErr : Option String
  createCollectionErr : Option String
  insertOneErr : Option String
  findErr : Option String
  cursorErr : Option (Nat × String)
  findOneErr : Option String
  deriving DecidableEq, Repr

/-- The scenario without faults: the store is reachable and answers every call. -/
def Env.reachable : Env :=
  { connectErr := none, pingErr := none, listDatabasesErr := none,
    listCollectionsErr := none, createCollectionErr := none, insertOneErr := none,
    findErr := none, cursorErr := none, findOneErr := none }

/-- The state the program runs against. -/
structure World where
  store : Store
  openConns : Nat
  trace : List Event
  deriving DecidableEq, Repr

/-- Record a driver call. -/
def World.log (w : World) (e : Event) : World :=
  { w with trace := w.trace ++ [e] }

/-- A connected `*mongo.Client`. -/
structure Client where
  deriving DecidableEq, Repr

/-- The call `mongo.Connect`: a client that holds an open connection, or an error. -/
def mongoConnect (env : Env) (w : World) : Except GoError Client × World :=
  let w := w.log .Connect
  match env.connectErr with
  | some e => (.error (.msg e), w)
  | none => (.ok {}, { w with openConns := w.openConns + 1 })

/-- The method `Client.Ping`. -/
def Client.Ping (_c : Client) (env : Env) (w : World) : Option GoError × World :=
  let w := w.log .Ping
  match env.pingErr with
  | some e => (some (.msg e), w)
  | none => (none, w)

/-- The method `Client.Disconnect`: closes the client's connection. -/
def Client.Disconnect (_c : Client) (w : World) : World :=
  let w := w.log .Disconnect
  { w with openConns := w.openConns - 1 }

/-- The method `Client.ListDatabaseNames` with the filter `name = dbName`. -/
def Client.ListDatabaseNames (_c : Client) (env : Env) (dbName : String) (w : World) :
    (List String × Option GoError) × World :=
  let w := w.log (.ListDatabaseNames dbName)
  match env.listDatabasesErr with
  | some e => (([], some (.msg e)), w)
  | none => ((((w.store.filter (fun d => d.name == dbName)).map (fun d => d.name)), none), w)

/-- The method `Database.ListCollectionNames` with the filter `name = collectionName`. -/
def Client.ListCollectionNames (_c : Client) (env : Env) (dbName collectionName : String)
    (w : World) : (List String × Option GoError) × World :=
  let w := w.log (.ListCollectionNames dbName collectionName)
  match env.listCollectionsErr with
  | some e => (([], some (.msg e)), w)
  | none =>
    (((((w.store.collections dbName).filter (fun c => c.name == collectionName)).map
        (fun c => c.name)), none), w)

/-- The method `Database.CreateCollection`: fails when the collection exists already. -/
def Client.CreateCollection (_c : Client) (env : Env) (dbName collectionName : String)
    (w : World) : Option GoError × World :=
  let w := w.log (.CreateCollection dbName collectionName)
  match env.createCollectionErr with
  | some e => (some (.msg e), w)
  | none =>
    if w.store.hasCollection dbName collectionName then
      (some (.msg "(NamespaceExists) Collection already exists."), w)
    else
      (none, { w with store := w.store.addCollection dbName collectionName })

/-- The method `Collection.InsertOne`: fails when the document has an `_id` and the
collection holds a document with the same `_id` already. -/
def Client.InsertOne (_c : Client) (env : Env) (dbName collectionName : String)
    (doc : Document) (w : World) : Option GoError × World :=
  let w := w.log (.InsertOne dbName collectionName)
  match env.insertOneErr with
  | some e => (some (.msg e), w)
  | none =>
    if (w.store.documents dbName collectionName).any (fun d =>
        match d.lookup "_id", doc.lookup "_id" with
        | some a, some b => a.sameKey b
        | _, _ => false) = true then
      (some (.msg "E11000 duplicate key error"), w)
    else
      (none, { w with store := w.store.addDocument dbName collectionName doc })

/-! ## Decoding documents into the `Dataset` shape -/

/-- The lower case of a character as far as a comparison with ASCII text can tell: the
letters `A` to `Z`, the Kelvin sign and the capital I with a dot are the characters whose
lower case is an ASCII letter; the lower case of any other character is outside ASCII or
the character itself, and the character is kept. -/
def lowerRune (c : Char) : Char :=
  if c = Char.ofNat 8490 then 'k'
  else if c = Char.ofNat 304 then 'i'
  else c.toLower

/-- The function `strings.ToLower`, as far as a comparison with ASCII text can tell. -/
def ToLower (s : String) : String :=
  String.mk (s.toList.map lowerRune)

/-- The driver's `IntDecodeValue` for a field of type `int`: a number of the int64 range
is taken, a value of another kind is converted or is a decoding error. -/
def IntDecodeValue : BsonValue → Except GoError Int
  | .int n => .ok n.val
  | .other _ (some n) _ => .ok n.val
  | _ => .error (.msg "cannot decode into an integer type")

/-- The driver's `StringDecodeValue`: a string is taken, a value of another kind is
converted or is a decoding error. -/
def StringDecodeValue : BsonValue → Except GoError String
  | .str s => .ok s
  | .other _ _ (some s) => .ok s
  | _ => .error (.msg "cannot decode into a string type")

/-- The zero value of `Dataset`, as `var dataset Dataset` declares it. -/
def zeroDataset : Dataset :=
  { ID := 0, Name := "", Data := "", DownloadLink := "", ShortDescription := "",
    LongDescription := "" }

/-- One step of the driver's struct decoder: the element is decoded into the field whose
`bson` tag is the key of the element or the lower case of that key (the tags of `Dataset`
are in lower case, so the second test covers the first); an element that matches no field
is skipped, and a value that does not decode into the type of its field is an error. -/
def decodeElement (ds : Dataset) (kv : String × BsonValue) : Except GoError Dataset :=
  let key := ToLower kv.1
  if key = "_id" then
    match IntDecodeValue kv.2 with
    | .ok n => .ok { ds with ID := n }
    | .error e => .error (Errorf ("error decoding key " ++ kv.1 ++ ": ") e)
  else if key = "name" then
    match StringDecodeValue kv.2 with
    | .ok v => .ok { ds with Name := v }
    | .error e => .error (Errorf ("error decoding key " ++ kv.1 ++ ": ") e)
  else if key = "data" then
    match StringDecodeValue kv.2 with
    | .ok v => .ok { ds with Data := v }
    | .error e => .error (Errorf ("error decoding key " ++ kv.1 ++ ": ") e)
  else if key = "download_link" then
    match StringDecodeValue kv.2 with
    | .ok v => .ok { ds with DownloadLink := v }
    | .error e => .error (Errorf ("error decoding key " ++ kv.1 ++ ": ") e)
  else if key = "short_description" then
    match StringDecodeValue kv.2 with
    | .ok v => .ok { ds with ShortDescription := v }
    | .error e => .error (Errorf ("error decoding key " ++ kv.1 ++ ": ") e)
  else if key = "long_description" then
    match StringDecodeValue kv.2 with
    | .ok v => .ok { ds with LongDescription := v }
    | .error e => .error (Errorf ("error decoding key " ++ kv.1 ++ ": ") e)
  else .ok ds

/-- The driver's struct decoder run over the elements that follow, from the record decoded
so far: the elements are decoded in order, so that a later element of a field overwrites
an earlier one, and the first error ends the decoding. -/
def decodeElements : List (String × BsonValue) → Dataset → Except GoError Dataset
  | [], ds => .ok ds
  | kv :: rest, ds =>
    match decodeElement ds kv with
    | .ok ds1 => decodeElements rest ds1
    | .error e => .error e

/-- Decode a document into a zero-valued `Dataset`, as `Decode(&dataset)` does. -/
def decodeDataset (d : Document) : Except GoError Dataset :=
  decodeElements d zeroDataset

/-- The call `Collection.Find` with the empty filter: a cursor over the documents of the
collection, or an error. -/
def Client.Find (_c : Client) (env : Env) (dbName collectionName : String) (w : World) :
    Except GoError (List Document) × World :=
  let w := w.log (.Find dbName collectionName)
  match env.findErr with
  | some e => (.error (.msg e), w)
  | none => (.ok (w.store.documents dbName collectionName), w)

/-- The document a collection holds under an identifier: the first the filter `_id = id`
matches. -/
def Store.findByID (s : Store) (db coll : String) (id : Int) : Option Document :=
  (s.documents db coll).find? (fun d => d.hasID id)

/-- The call `Collection.FindOne` with the filter `_id = id`, followed by `Decode` into a
zero-valued `Dataset`. -/
def Client.FindOneDecode (_c : Client) (env : Env) (dbName collectionName : String)
    (id : Int) (w : World) : (Dataset × Option GoError) × World :=
  let zero : Dataset := zeroDataset
  let w := w.log (.FindOne dbName collectionName id)
  match env.findOneErr with
  | some e => ((zero, some (.msg e)), w)
  | none =>
    match w.store.findByID dbName collectionName id with
    | none => ((zero, some .ErrNoDocuments), w)
    | some d =>
      match decodeDataset d with
      | .error e => ((zero, some e), w)
      | .ok ds => ((ds, none), w)

/-- The method `Cursor.Close`. -/
def cursorClose (w : World) : World :=
  w.log .CursorClose

/-- A Go slice of datasets: `none` is the nil slice. -/
abbrev DatasetSlice := Option (List Dataset)

/-- The built-in `append` for one element. -/
def goAppend (s : DatasetSlice) (d : Dataset) : DatasetSlice :=
  match s with
  | none => some [d]
  | some xs => some (xs ++ [d])

/-- How the loop `for cursor.Next(ctx)` of `connectAndRetrieveDatasets` ends: by the
`return` on a decoding error, or by `Next` giving false, with the slice built so far and
what `cursor.Err()` holds. -/
inductive LoopExit where
  | decodeFailed (err : GoError)
  | done (datasets : DatasetSlice) (cursorErr : Option GoError)
  deriving DecidableEq, Repr

/-- What `cursor.Next` runs into once the cursor has delivered `delivered` documents: the
fault of the scenario, if it is due then. -/
def cursorFault (env : Env) (delivered : Nat) : Option GoError :=
  match env.cursorErr with
  | some (n, e) => if n = delivered then some (.msg e) else none
  | none => none

/-- The loop `for cursor.Next(ctx)`: the first argument holds the documents the cursor has
yet to deliver, `delivered` counts those it has delivered.  `Next` gives false when the
cursor fails or is exhausted; otherwise the document is decoded and appended. -/
def cursorLoop (env : Env) : List Document → Nat → DatasetSlice → LoopExit
  | [], delivered, datasets =>
    match cursorFault env delivered with
    | some e => .done datasets (some e)
    | none => .done datasets none
  | d :: rest, delivered, datasets =>
    match cursorFault env delivered with
    | some e => .done datasets (some e)
    | none =>
      match decodeDataset d with
      | .error err => .decodeFailed err
      | .ok dataset => cursorLoop env rest (delivered + 1) (goAppend datasets dataset)

/-! ## `dao/mongodb_dao.go` -/

/-- The function `ConnectDB`. -/
def ConnectDB (env : Env) (w : World) : Except GoError Client × World :=
  match mongoConnect env w with
  | (.error err, w) => (.error (Errorf "failed to connect to MongoDB: " err), w)
  | (.ok c, w) =>
    match c.Ping env w with
    | (some err, w) => (.error (Errorf "failed to ping MongoDB server: " err), w)
    | (none, w) => (.ok c, w)

/-- The seed document of `CreateCollectionIfNotExists`. -/
def sampleData : Document :=
  [("_id", .int ⟨1, by decide⟩),
   ("name", .str "Feature Set 1"),
   ("download_link", .str "linkFor Download"),
   ("short_description", .str
     "Acronym identification training and development sets for the acronym identification task at SDU@AAAI-21."),
   ("long_description", .str "Long description")]

/-- The function `CreateCollectionIfNotExists`; the deferred `Disconnect` runs on every
return that follows the `defer` statement. -/
def CreateCollectionIfNotExists (env : Env) (dbName collectionName : String) (w : World) :
    Option GoError × World :=
  match ConnectDB env w with
  | (.error err, w) => (some err, w)
  | (.ok client, w) =>
    let (result, w) : Option GoError × World :=
      match client.ListCollectionNames env dbName collectionName w with
      | ((collection, err), w) =>
        if err = none ∧ collection.length = 1 then
          (none, w)
        else
          match client.CreateCollection env dbName collectionName w with
          | (some err, w) => (some err, w)
          | (none, w) =>
            match client.InsertOne env dbName collectionName sampleData w with
            | (some err, w) => (some err, w)
            | (none, w) => (none, w)
    (result, client.Disconnect w)

/-! ## `net/http` and `encoding/json` -/

/-- A JSON number or string. -/
inductive JsonScalar where
  | num (n : Int)
  | str (s : String)
  deriving DecidableEq, Repr

/-- A JSON object: its members in order. -/
abbrev JsonObject := List (String × JsonScalar)

/-- The JSON values the service can write. -/
inductive Json where
  | null
  | obj (members : JsonObject)
  | arr (elements : List JsonObject)
  deriving DecidableEq, Repr

/-- The member of an `int` field tagged `omitempty`. -/
def omitemptyInt (key : String) (n : Int) : JsonObject :=
  if n = 0 then [] else [(key, .num n)]

/-- The member of a `string` field tagged `omitempty`. -/
def omitemptyString (key : String) (s : String) : JsonObject :=
  if s = "" then [] else [(key, .str s)]

/-- The JSON object of a `Dataset`, following the `json` tags of the struct. -/
def Dataset.toJson (d : Dataset) : JsonObject :=
  omitemptyInt "_id" d.ID ++ omitemptyString "name" d.Name ++ omitemptyString "data" d.Data ++
    omitemptyString "download_link" d.DownloadLink ++
    omitemptyString "short_description" d.ShortDescription ++
    omitemptyString "long_description" d.LongDescription

/-- The JSON value of a `[]Dataset`: the nil slice is encoded as `null`. -/
def DatasetSlice.toJson : DatasetSlice → Json
  | none => .null
  | some xs => .arr (xs.map Dataset.toJson)

/-- A piece of a response body. -/
inductive Chunk where
  | json (j : Json)
  | text (s : String)
  deriving DecidableEq, Repr

/-- What has been written to an `http.ResponseWriter`: `status` is none until the status
line is written. -/
structure ResponseWriter where
  header : List (String × String)
  status : Option Nat
  body : List Chunk
  deriving DecidableEq, Repr

/-- A fresh response writer. -/
def ResponseWriter.new : ResponseWriter :=
  { header := [], status := none, body := [] }

/-- The method `Header().Del`. -/
def ResponseWriter.headerDel (res : ResponseWriter) (key : String) : ResponseWriter :=
  { res with header := res.header.filter (fun kv => !(kv.1 == key)) }

/-- The method `Header().Set`. -/
def ResponseWriter.headerSet (res : ResponseWriter) (key value : String) : ResponseWriter :=
  { res with header := res.header.filter (fun kv => !(kv.1 == key)) ++ [(key, value)] }

/-- The method `WriteHeader`: the first call fixes the status. -/
def ResponseWriter.WriteHeader (res : ResponseWriter) (code : Nat) : ResponseWriter :=
  match res.status with
  | some _ => res
  | none => { res with status := some code }

/-- The method `Write`: writes the status line 200 first when none is written yet. -/
def ResponseWriter.Write (res : ResponseWriter) (c : Chunk) : ResponseWriter :=
  let res := res.WriteHeader 200
  { res with body := res.body ++ [c] }

/-- The status the client receives. -/
def ResponseWriter.Code (res : ResponseWriter) : Nat :=
  res.status.getD 200

/-- The function `http.Error`. -/
def httpError (res : ResponseWriter) (error : String) (code : Nat) : ResponseWriter :=
  let res := res.headerDel "Content-Length"
  let res := res.headerSet "Content-Type" "text/plain; charset=utf-8"
  let res := res.headerSet "X-Content-Type-Options" "nosniff"
  let res := res.WriteHeader code
  res.Write (.text (error ++ "\n"))

/-- The call `json.NewEncoder(res).Encode(v)` for a value already turned into JSON.  The
values the service encodes (datasets and string maps) never make the encoder fail. -/
def jsonEncode (res : ResponseWriter) (j : Json) : ResponseWriter × Option GoError :=
  (res.Write (.json j), none)

/-- The constant `http.StatusOK`. -/
def StatusOK : Nat := 200

/-- The constant `http.StatusBadRequest`. -/
def StatusBadRequest : Nat := 400

/-- The constant `http.StatusNotFound`. -/
def StatusNotFound : Nat := 404

/-- The constant `http.StatusMethodNotAllowed`. -/
def StatusMethodNotAllowed : Nat := 405

/-- The constant `http.StatusInternalServerError`. -/
def StatusInternalServerError : Nat := 500

/-- The constant `http.StatusServiceUnavailable`. -/
def StatusServiceUnavailable : Nat := 503

/-- The function `ReportHealth` of `dao/mongodb_dao.go`. -/
def ReportHealth (env : Env) (res : ResponseWriter) (dbName : String) (w : World) :
    ResponseWriter × World :=
  let res := res.headerSet "Content-Type" "application/json"
  match ConnectDB env w with
  | (.error err, w) =>
    let res := res.WriteHeader StatusServiceUnavailable
    ((jsonEncode res (.obj [("error", .str err.Error), ("status", .str "unhealthy")])).1, w)
  | (.ok client, w) =>
    let (res, w) : ResponseWriter × World :=
      match client.ListDatabaseNames env dbName w with
      | ((_, some err), w) =>
        let res := res.WriteHeader StatusServiceUnavailable
        ((jsonEncode res
          (.obj [("error", .str err.Error), ("status", .str "unhealthy")])).1, w)
      | ((db, none), w) =>
        if db.length < 1 then
          let res := res.WriteHeader StatusServiceUnavailable
          ((jsonEncode res
            (.obj [("error", .str "MongoDB databse check failed: Can not find Database"),
                   ("status", .str "unhealthy")])).1, w)
        else
          ((jsonEncode res (.obj [("status", .str "healthy")])).1, w)
    (res, client.Disconnect w)

/-! ## `strconv.Atoi` -/

/-- The value of a string of decimal digits; none when the string is empty or holds
another character. -/
def parseDigits (cs : List Char) : Option Nat :=
  if cs = [] then none
  else cs.foldl (fun acc ch =>
    match acc with
    | none => none
    | some n => if ch.isDigit then some (n * 10 + (ch.toNat - 48)) else none) (some 0)

/-- The function `strconv.Atoi` for the 64-bit `int`: an optional sign and decimal digits.
A syntax error gives 0, a value out of range gives the nearest bound, both with an error. -/
def Atoi (s : String) : Int × Option GoError :=
  let (neg, digits) : Bool × List Char :=
    match s.toList with
    | '-' :: rest => (true, rest)
    | '+' :: rest => (false, rest)
    | cs => (false, cs)
  match parseDigits digits with
  | none => (0, some (.msg ("strconv.Atoi: parsing " ++ s ++ ": invalid syntax")))
  | some n =>
    let v : Int := if neg then -(n : Int) else (n : Int)
    if v < -(2 : Int) ^ 63 then
      (-(2 : Int) ^ 63, some (.msg ("strconv.Atoi: parsing " ++ s ++ ": value out of range")))
    else if (2 : Int) ^ 63 - 1 < v then
      ((2 : Int) ^ 63 - 1, some (.msg ("strconv.Atoi: parsing " ++ s ++ ": value out of range")))
    else (v, none)

/-! ## `main.go` -/

/-- An HTTP request as the handlers see it: `vars` are the route variables `mux.Vars`. -/
structure Request where
  method : String
  path : String
  vars : List (String × String)
  deriving DecidableEq, Repr

/-- The expression `mux.Vars(req)[key]`: the empty string when the variable is not set. -/
def Request.var (req : Request) (key : String) : String :=
  match req.vars.find? (fun kv => kv.1 == key) with
  | some kv => kv.2
  | none => ""

/-- The function `connectAndRetrieveDatasets`.  The `defer client.Disconnect` stands after
the loop, so it is in force only on the return that follows it; the deferred calls run in
reverse order (`Disconnect`, then `cursor.Close`). -/
def connectAndRetrieveDatasets (env : Env) (w : World) :
    (DatasetSlice × Option GoError) × World :=
  match ConnectDB env w with
  | (.error err, w) => ((none, some err), w)
  | (.ok client, w) =>
    match client.Find env "enbuild" "MlDataset" w with
    | (.error err, w) =>
      ((none, some (Errorf "failed to query datasets from the database: " err)), w)
    | (.ok cursor, w) =>
      match cursorLoop env cursor 0 none with
      | .decodeFailed err =>
        ((none, some (Errorf "failed to decode dataset: " err)), cursorClose w)
      | .done _ (some err) =>
        ((none, some (Errorf "error during cursor iteration: " err)), cursorClose w)
      | .done datasets none =>
        ((datasets, none), cursorClose (client.Disconnect w))

/-- The function `connectAndRetrieveDataset`.  The `defer client.Disconnect` stands after
the error check, so it is in force only on the return that follows it. -/
def connectAndRetrieveDataset (env : Env) (id : Int) (w : World) :
    (Option Dataset × Option GoError) × World :=
  match ConnectDB env w with
  | (.error err, w) => ((none, some err), w)
  | (.ok client, w) =>
    match client.FindOneDecode env "enbuild" "MlDataset" id w with
    | ((_, some err), w) =>
      if err = .ErrNoDocuments then
        ((none, none), w)
      else
        ((none, some (Errorf "failed to query dataset from the database: " err)), w)
    | ((dataset, none), w) => ((some dataset, none), client.Disconnect w)

/-- The handler `getAllDatasets`. -/
def getAllDatasets (env : Env) (res : ResponseWriter) (_req : Request) (w : World) :
    ResponseWriter × World :=
  let res := res.headerSet "Content-Type" "application/json"
  match connectAndRetrieveDatasets env w with
  | ((_, some _), w) =>
    (httpError res "Internal Server Error" StatusInternalServerError, w)
  | ((mlDatasets, none), w) =>
    match jsonEncode res mlDatasets.toJson with
    | (res, some _) => (httpError res "Internal Server Error" StatusInternalServerError, w)
    | (res, none) => (res, w)

/-- The handler `getDataset`. -/
def getDataset (env : Env) (res : ResponseWriter) (req : Request) (w : World) :
    ResponseWriter × World :=
  let res := res.headerSet "Content-Type" "application/json"
  match Atoi (req.var "id") with
  | (_, some _) => (httpError res "Invalid ID" StatusBadRequest, w)
  | (id, none) =>
    match connectAndRetrieveDataset env id w with
    | ((_, some _), w) =>
      (httpError res "Internal Server Error" StatusInternalServerError, w)
    | ((none, none), w) => (httpError res "Not found" StatusNotFound, w)
    | ((some mlDataset, none), w) =>
      match jsonEncode res (.obj mlDataset.toJson) with
      | (res, some _) => (httpError res "Internal Server Error" StatusInternalServerError, w)
      | (res, none) => (res, w)

/-- The handler `handleOptions`. -/
def handleOptions (res : ResponseWriter) (_req : Request) : ResponseWriter :=
  let res := res.headerSet "Access-Control-Allow-Origin" "*"
  let res := res.headerSet "Content-Type" "text/html; charset=utf-8"
  let res := res.headerSet "Access-Control-Allow-Methods" "GET, POST, PUT, DELETE, OPTIONS"
  let res := res.headerSet "Access-Control-Allow-Headers"
    "Content-Type, X-Requested-With, Authorization"
  res.WriteHeader StatusOK

/-- The package variables `database` and `collection`, and the listen address. -/
structure Config where
  port : String
  database : String
  collection : String
  deriving DecidableEq, Repr

/-- The configuration part of `main`: the environment variables with their defaults. -/
def loadConfig (getenv : String → String) : Config :=
  { port := if getenv "APP_PORT" = "" then ":8081" else getenv "APP_PORT",
    database :=
      if getenv "MONGODB_DATABASE" = "" then "enbuild" else getenv "MONGODB_DATABASE",
    collection :=
      if getenv "MONGODB_COLLECTION" = "" then "MlDataset" else getenv "MONGODB_COLLECTION" }

/-- How `main` goes on after its initialization: it exits through `errorLogger.Fatal`, or
it starts serving with the configuration it has read. -/
inductive Startup where
  | fatal (message : String)
  | serving (cfg : Config)
  deriving DecidableEq, Repr

/-- The function `main` up to the call of `http.ListenAndServe`. -/
def main (getenv : String → String) (env : Env) (w : World) : Startup × World :=
  let cfg := loadConfig getenv
  if getenv "MONGODB_ENDPOINT" = "" then
    (.fatal "Fatal: You need to set the environment variable: MONGODB_ENDPOINT", w)
  else
    match CreateCollectionIfNotExists env cfg.database cfg.collection w with
    | (some _, w) =>
      (.fatal ("Fatal: Not able to initlize the MongoDB collection: " ++ cfg.collection), w)
    | (none, w) => (.serving cfg, w)

/-! ## The router of `main`

Requests are taken with a path in canonical form (the router redirects the others before
it matches) and without an `Origin` header, for which the CORS middleware adds nothing. -/

/-- The handlers registered in `main`. -/
inductive Handler where
  | handleOptions
  | getAllDatasets
  | getDataset
  | healthz
  deriving DecidableEq, Repr

/-- A path template: a literal path, or a literal followed by one variable with the
pattern `[0-9]+`. -/
inductive PathTemplate where
  | literal (path : String)
  | digits (pre : String) (var : String)
  deriving DecidableEq, Repr

/-- Match a path against a template, giving the route variables. -/
def PathTemplate.matchPath : PathTemplate → String → Option (List (String × String))
  | .literal p, path => if path = p then some [] else none
  | .digits pre var, path =>
    let seg := path.toList.drop pre.length
    if path.toList.take pre.length = pre.toList ∧ seg ≠ [] ∧ seg.all Char.isDigit = true then
      some [(var, String.mk seg)]
    else none

/-- A route: `router.HandleFunc(template, handler).Methods(method)`. -/
structure Route where
  template : PathTemplate
  method : String
  handler : Handler
  deriving DecidableEq, Repr

/-- The routes in the order `main` registers them. -/
def routes : List Route :=
  [{ template := .literal "/api/mlDataset", method := "OPTIONS", handler := .handleOptions },
   { template := .literal "/api/mlDataset", method := "GET", handler := .getAllDatasets },
   { template := .digits "/api/mlDataset/" "id", method := "GET", handler := .getDataset },
   { template := .literal "/api/healthz", method := "GET", handler := .healthz }]

/-- The outcome of `Router.Match`. -/
inductive RouteMatch where
  | matched (handler : Handler) (vars : List (String × String))
  | methodNotAllowed
  | notFound
  deriving DecidableEq, Repr

/-- The method `Router.Match`: the first route whose path and method both match; a route
whose path matches and whose method does not is remembered as a method mismatch. -/
def routerMatch (method path : String) : List Route → Bool → RouteMatch
  | [], mismatch => if mismatch then .methodNotAllowed else .notFound
  | r :: rest, mismatch =>
    match r.template.matchPath path with
    | none => routerMatch method path rest mismatch
    | some vars =>
      if r.method = method then .matched r.handler vars
      else routerMatch method path rest true

/-- Run a handler of `main`. -/
def Handler.serve (h : Handler) (cfg : Config) (env : Env) (res : ResponseWriter)
    (req : Request) (w : World) : ResponseWriter × World :=
  match h with
  | .handleOptions => (MlService.handleOptions res req, w)
  | .getAllDatasets => MlService.getAllDatasets env res req w
  | .getDataset => MlService.getDataset env res req w
  | .healthz => ReportHealth env res cfg.database w

/-- The CORS middleware for a request without an `Origin` header: the origin is not
allowed, so an `OPTIONS` request is answered without the handler and any other request is
handed on unchanged. -/
def cors (method : String) (next : ResponseWriter → World → ResponseWriter × World)
    (res : ResponseWriter) (w : World) : ResponseWriter × World :=
  if method = "OPTIONS" then (res, w) else next res w

/-- The method `Router.ServeHTTP` for the router built in `main`. -/
def ServeHTTP (cfg : Config) (env : Env) (method path : String) (w : World) :
    ResponseWriter × World :=
  let res := ResponseWriter.new
  match routerMatch method path routes false with
  | .matched h vars =>
    cors method (fun res w =>
      h.serve cfg env res { method := method, path := path, vars := vars } w) res w
  | .methodNotAllowed => (res.WriteHeader StatusMethodNotAllowed, w)
  | .notFound => (httpError res "404 page not found" StatusNotFound, w)

/-! ## Vocabulary of the properties -/

/-- The value of a member of a JSON object. -/
def JsonObject.get (o : JsonObject) (key : String) : Option JsonScalar :=
  match o.find? (fun kv => kv.1 == key) with
  | some kv => some kv.2
  | none => none

/-- The JSON value a response carries: its body, when that is one JSON value. -/
def ResponseWriter.json (res : ResponseWriter) : Option Json :=
  match res.body with
  | [.json j] => some j
  | _ => none

/-- The member of the JSON object a response carries. -/
def ResponseWriter.member (res : ResponseWriter) (key : String) : Option JsonScalar :=
  match res.json with
  | some (.obj o) => o.get key
  | _ => none

/-- The value a document stores for the field of `Dataset` with the given tag: the value
of the last element whose key is the tag in any letter case. -/
def Document.field (d : Document) (tag : String) : Option BsonValue :=
  match d.reverse.find? (fun kv => ToLower kv.1 == tag) with
  | some kv => some kv.2
  | none => none

/-- An `int` field of a record is what the driver decodes from the value the document
stores for it, or 0 when the document has no element for the field. -/
def intFieldDecoded (d : Document) (tag : String) (n : Int) : Prop :=
  (∀ v, d.field tag = some v → IntDecodeValue v = .ok n) ∧ (d.field tag = none → n = 0)

/-- A `string` field of a record is what the driver decodes from the value the document
stores for it, or the empty string when the document has no element for the field. -/
def stringFieldDecoded (d : Document) (tag : String) (value : String) : Prop :=
  (∀ v, d.field tag = some v → StringDecodeValue v = .ok value) ∧
  (d.field tag = none → value = "")

/-- A string field of a record equals what the document stores for it: the stored string,
or the empty string when the document has no element for the field. -/
def fieldAgrees (d : Document) (tag : String) (value : String) : Prop :=
  (∀ s, d.field tag = some (.str s) → value = s) ∧ (d.field tag = none → value = "")

/-- The response carries the string the document stores for the field, when that string is
not empty. -/
def carriesField (res : ResponseWriter) (d : Document) (tag : String) : Prop :=
  ∀ s, s ≠ "" → d.field tag = some (.str s) → res.member tag = some (.str s)

/-- The string is one path segment that path cleaning leaves alone: it has no slash and is
neither `.` nor `..`. -/
def singleSegment (seg : String) : Prop :=
  '/' ∉ seg.toList ∧ seg ≠ "." ∧ seg ≠ ".."

/-- The store keeps names apart: no two databases share a name, and no two collections of
a database do. -/
def Store.WellFormed (s : Store) : Prop :=
  (s.map (fun d => d.name)).Nodup ∧ ∀ d ∈ s, (d.colls.map (fun c => c.name)).Nodup

/-- A world with an empty store, no open connection and no call made. -/
def World.empty : World :=
  { store := [], openConns := 0, trace := [] }

/-- A world whose store is the one a first start with the default names leaves: the
collection `MlDataset` of the database `enbuild`, holding the seed document. -/
def World.seeded : World :=
  { store := [{ name := "enbuild", colls := [{ name := "MlDataset", docs := [sampleData] }] }],
    openConns := 0, trace := [] }

/-- The seed document as a `Dataset`. -/
def seedDataset : Dataset :=
  { ID := 1, Name := "Feature Set 1", Data := "", DownloadLink := "linkFor Download",
    ShortDescription :=
      "Acronym identification training and development sets for the acronym identification task at SDU@AAAI-21.",
    LongDescription := "Long description" }

/-- A document that does not decode into a `Dataset`: its `_id` is a string. -/
def malformedDocument : Document :=
  [("_id", .str "two"), ("name", .str "Feature Set 2")]

/-- A world whose collection holds the seed document, a malformed one and a third. -/
def World.malformed : World :=
  { store := [{ name := "enbuild",
                colls := [{ name := "MlDataset",
                            docs := [sampleData, malformedDocument,
                                     [("_id", .int ⟨3, by decide⟩), ("name", .str "Feature Set 3")]] }] }],
    openConns := 0, trace := [] }

/-- A world whose collection holds one document, a malformed one. -/
def World.onlyMalformed : World :=
  { store := [{ name := "enbuild",
                colls := [{ name := "MlDataset", docs := [malformedDocument] }] }],
    openConns := 0, trace := [] }

/-- The request `GET /api/mlDataset` as the router hands it to `getAllDatasets`. -/
def Request.list : Request :=
  { method := "GET", path := "/api/mlDataset", vars := [] }

/-- A document stored under the identifier 0, with an empty name. -/
def zeroDocument : Document :=
  [("_id", .int ⟨0, by decide⟩), ("name", .str ""), ("data", .str "rows")]

/-- A world whose collection holds the seed document and one under the identifier 0. -/
def World.withZero : World :=
  { store := [{ name := "enbuild",
                colls := [{ name := "MlDataset", docs := [sampleData, zeroDocument] }] }],
    openConns := 0, trace := [] }

/-- A world whose collection `enbuild.MlDataset` holds the given documents. -/
def World.holding (docs : List Document) : World :=
  { store := [{ name := "enbuild", colls := [{ name := "MlDataset", docs := docs }] }],
    openConns := 0, trace := [] }

/-- A document that spells the key of the name with a capital. -/
def capitalKeyDocument : Document :=
  [("_id", .int ⟨5, by decide⟩), ("Name", .str "Upper")]

/-- A document with a number under the key of the name, spelled with a capital. -/
def numberAsNameDocument : Document :=
  [("_id", .int ⟨5, by decide⟩), ("Name", .int ⟨42, by decide⟩)]

/-- A document whose `_id` is a number outside the int64 range (such as the double 1e19),
which the driver does not decode into an `int`. -/
def hugeIdentifierDocument : Document :=
  [("_id", .other 0 none none)]

/-- A document with an element that is no field of `Dataset`. -/
def extraFieldDocument : Document :=
  [("_id", .int ⟨5, by decide⟩), ("name", .str "Named"), ("owner", .str "x")]

/-- A document with a second element, `_ID`, that the driver decodes into the identifier
after the `_id` under which the store holds the document. -/
def secondIdentifierDocument : Document :=
  [("_id", .int ⟨5, by decide⟩), ("_ID", .int ⟨7, by decide⟩)]

/-- The scenario in which listing the collections fails and nothing else does. -/
def Env.listingFails : Env :=
  { Env.reachable with listCollectionsErr := some "context deadline exceeded" }

/-- The scenario in which the ping of `ConnectDB` fails and nothing else does. -/
def Env.pingFails : Env :=
  { Env.reachable with pingErr := some "context deadline exceeded" }

/-- An environment that sets the endpoint and configures the database `catalog` and the
collection `Sets`. -/
def customGetenv (key : String) : String :=
  if key = "MONGODB_ENDPOINT" then "mongodb://db:27017"
  else if key = "MONGODB_DATABASE" then "catalog"
  else if key = "MONGODB_COLLECTION" then "Sets"
  else ""

/-- An environment that sets the endpoint only, leaving the names to their defaults. -/
def defaultGetenv (key : String) : String :=
  if key = "MONGODB_ENDPOINT" then "mongodb://db:27017" else ""

/-- A request as the router hands it to `getDataset`. -/
def Request.forID (segment : String) : Request :=
  { method := "GET", path := "/api/mlDataset/" ++ segment, vars := [("id", segment)] }

/-! ## The connector -/

theorem ConnectDB_reachable (env : Env) (w : World) (hc : env.connectErr = none)
    (hp : env.pingErr = none) :
    ConnectDB env w =
      (.ok {}, { store := w.store, openConns := w.openConns + 1,
                 trace := w.trace ++ [.Connect, .Ping] }) := by
  simp [ConnectDB, mongoConnect, Client.Ping, World.log, hc, hp]

theorem ConnectDB_store (env : Env) (w : World) : (ConnectDB env w).2.store = w.store := by
  unfold ConnectDB mongoConnect Client.Ping World.log
  cases env.connectErr <;> cases env.pingErr <;> rfl

/-! ## Fetching one dataset -/

theorem findByID_none (s : Store) (db coll : String) (id : Int)
    (h : ∀ d ∈ s.documents db coll, d.hasID id = false) :
    s.findByID db coll id = none := by
  unfold Store.findByID
  rw [List.find?_eq_none]
  intro d hd
  simp [h d hd]

theorem forID_var (segment : String) : (Request.forID segment).var "id" = segment := by
  simp [Request.forID, Request.var]

/-- C2. For every integer id for which the collection read by the service holds no
document (none that the filter `_id = id` matches), with the database reachable
(connecting, pinging and querying do not fail),
`connectAndRetrieveDataset` returns the not-found outcome (nil record, nil error), and
`getDataset`, for a request whose id variable parses to that id, responds 404, not 500. -/
theorem getDataset_absent_not_found (env : Env) (w : World) (id : Int) (req : Request)
    (hc : env.connectErr = none) (hp : env.pingErr = none) (hq : env.findOneErr = none)
    (habsent : ∀ d ∈ w.store.documents "enbuild" "MlDataset", d.hasID id = false)
    (hreq : Atoi (req.var "id") = (id, none)) :
    (connectAndRetrieveDataset env id w).1 = (none, none) ∧
    (getDataset env ResponseWriter.new req w).1.Code = StatusNotFound ∧
    (getDataset env ResponseWriter.new req w).1.Code ≠ StatusInternalServerError := by
  have hfind := findByID_none w.store "enbuild" "MlDataset" id habsent
  have hret : (connectAndRetrieveDataset env id w).1 = (none, none) := by
    simp [connectAndRetrieveDataset, ConnectDB_reachable env w hc hp, Client.FindOneDecode,
      World.log, hq, hfind]
  have hcode : (getDataset env ResponseWriter.new req w).1.Code = StatusNotFound := by
    unfold getDataset
    simp only [hreq]
    rcases hres : connectAndRetrieveDataset env id w with ⟨⟨r, e⟩, w1⟩
    rw [hres] at hret
    simp only [Prod.mk.injEq] at hret
    obtain ⟨rfl, rfl⟩ := hret
    rfl
  exact ⟨hret, hcode, by rw [hcode]; decide⟩

/-- C2 at a concrete input: the request for identifier 999 against the seeded store. -/
theorem getDataset_absent_not_found_witness :
    (∀ d ∈ World.seeded.store.documents "enbuild" "MlDataset", d.hasID 999 = false) ∧
    Atoi ((Request.forID "999").var "id") = (999, none) ∧
    (connectAndRetrieveDataset Env.reachable 999 World.seeded).1 = (none, none) ∧
    (getDataset Env.reachable ResponseWriter.new (Request.forID "999") World.seeded).1.Code
      = StatusNotFound ∧
    (getDataset Env.reachable ResponseWriter.new (Request.forID "999") World.seeded).1.Code
      ≠ StatusInternalServerError :=
  ⟨by decide, by decide,
   getDataset_absent_not_found Env.reachable World.seeded 999 (Request.forID "999")
     rfl rfl rfl (by decide) (by decide)⟩

/-! ## Listing the datasets -/

theorem cursorLoop_malformed (env : Env) (docs : List Document) (delivered : Nat)
    (acc : DatasetSlice)
    (hbad : ∃ d ∈ docs, ∀ ds, decodeDataset d ≠ .ok ds) :
    (∃ err, cursorLoop env docs delivered acc = .decodeFailed err) ∨
    (∃ ds err, cursorLoop env docs delivered acc = .done ds (some err)) := by
  induction docs generalizing delivered acc with
  | nil => simp at hbad
  | cons d rest ih =>
    simp only [cursorLoop]
    cases cursorFault env delivered with
    | some e => exact Or.inr ⟨_, _, rfl⟩
    | none =>
      cases hdec : decodeDataset d with
      | error e => exact Or.inl ⟨e, rfl⟩
      | ok ds =>
        simp only
        apply ih
        obtain ⟨b, hb, hbd⟩ := hbad
        rcases List.mem_cons.mp hb with rfl | hmem
        · exact absurd hdec (hbd ds)
        · exact ⟨b, hmem, hbd⟩

theorem connectAndRetrieveDatasets_error_code (env : Env) (w : World) (req : Request)
    (h : (connectAndRetrieveDatasets env w).1.2 ≠ none) :
    (getAllDatasets env ResponseWriter.new req w).1.Code = StatusInternalServerError := by
  unfold getAllDatasets
  rcases hres : connectAndRetrieveDatasets env w with ⟨⟨r, e⟩, w1⟩
  rw [hres] at h
  cases e with
  | none => simp at h
  | some err => rfl

/-- C9. For every content of the collection in which at least one document fails to decode
into the `Dataset` shape, wherever it stands and whatever else fails,
`connectAndRetrieveDatasets` returns a non-nil error and a nil slice, and `getAllDatasets`
responds 500. -/
theorem connectAndRetrieveDatasets_malformed (env : Env) (w : World) (req : Request)
    (hbad : ∃ d ∈ w.store.documents "enbuild" "MlDataset", ∀ ds, decodeDataset d ≠ .ok ds) :
    (connectAndRetrieveDatasets env w).1.1 = none ∧
    (connectAndRetrieveDatasets env w).1.2 ≠ none ∧
    (getAllDatasets env ResponseWriter.new req w).1.Code = StatusInternalServerError := by
  have key : (connectAndRetrieveDatasets env w).1.1 = none ∧
      (connectAndRetrieveDatasets env w).1.2 ≠ none := by
    unfold connectAndRetrieveDatasets
    rcases hconn : ConnectDB env w with ⟨r, w1⟩
    have hstore : w1.store = w.store := by
      have := ConnectDB_store env w
      rw [hconn] at this
      exact this
    cases r with
    | error err => simp
    | ok client =>
      simp only [Client.Find, World.log]
      cases env.findErr with
      | some e => simp
      | none =>
        simp only [hstore]
        rcases cursorLoop_malformed env (w.store.documents "enbuild" "MlDataset") 0 none hbad
          with ⟨err, hloop⟩ | ⟨ds, err, hloop⟩
        · rw [hloop]; simp
        · rw [hloop]; simp
  exact ⟨key.1, key.2, connectAndRetrieveDatasets_error_code env w req key.2⟩

theorem malformedDocument_not_decoded (ds : Dataset) :
    decodeDataset malformedDocument ≠ .ok ds := by
  intro h
  cases h

/-- C9 at a concrete input: a malformed document between two well-formed ones. -/
theorem connectAndRetrieveDatasets_malformed_witness :
    (∃ d ∈ World.malformed.store.documents "enbuild" "MlDataset",
      ∀ ds, decodeDataset d ≠ .ok ds) ∧
    (connectAndRetrieveDatasets Env.reachable World.malformed).1.1 = none ∧
    (connectAndRetrieveDatasets Env.reachable World.malformed).1.2 ≠ none ∧
    (getAllDatasets Env.reachable ResponseWriter.new Request.list World.malformed).1.Code
      = StatusInternalServerError :=
  ⟨⟨malformedDocument, by decide, malformedDocument_not_decoded⟩,
   connectAndRetrieveDatasets_malformed Env.reachable World.malformed Request.list
     ⟨malformedDocument, by decide, malformedDocument_not_decoded⟩⟩

theorem foldl_goAppend_some (xs dss : List Dataset) :
    dss.foldl goAppend (some xs) = some (xs ++ dss) := by
  induction dss generalizing xs with
  | nil => simp
  | cons d rest ih => simp [goAppend, ih]

theorem foldl_goAppend_none (dss : List Dataset) :
    dss.foldl goAppend none = if dss = [] then none else some dss := by
  cases dss with
  | nil => rfl
  | cons d rest => simp [goAppend, foldl_goAppend_some]

theorem cursorLoop_decoded (env : Env) (hcur : env.cursorErr = none) (docs : List Document)
    (dss : List Dataset) (hdec : List.Forall₂ (fun d ds => decodeDataset d = .ok ds) docs dss)
    (delivered : Nat) (acc : DatasetSlice) :
    cursorLoop env docs delivered acc = .done (dss.foldl goAppend acc) none := by
  induction hdec generalizing delivered acc with
  | nil => simp [cursorLoop, cursorFault, hcur]
  | cons hd _ ih => simp [cursorLoop, cursorFault, hcur, hd, ih]

theorem connectAndRetrieveDatasets_decoded (env : Env) (w : World) (dss : List Dataset)
    (hc : env.connectErr = none) (hp : env.pingErr = none) (hf : env.findErr = none)
    (hcur : env.cursorErr = none)
    (hdec : List.Forall₂ (fun d ds => decodeDataset d = .ok ds)
      (w.store.documents "enbuild" "MlDataset") dss) :
    (connectAndRetrieveDatasets env w).1 = (if dss = [] then none else some dss, none) := by
  simp [connectAndRetrieveDatasets, ConnectDB_reachable env w hc hp, Client.Find, World.log,
    hf, cursorLoop_decoded env hcur _ dss hdec, foldl_goAppend_none]

/-- C4, as amended. For every state of the collection in which every document decodes into
the `Dataset` shape, with the database reachable (connecting, pinging, querying and
iterating do not fail), `connectAndRetrieveDatasets` returns no error and one record per
stored document in the order of the store, and `getAllDatasets` responds 200 with one JSON
value; when the collection is not empty that value is the JSON array of the records in
that order.  For an empty collection the slice returned is empty (nil). -/
theorem getAllDatasets_decodable (env : Env) (w : World) (req : Request) (dss : List Dataset)
    (hc : env.connectErr = none) (hp : env.pingErr = none) (hf : env.findErr = none)
    (hcur : env.cursorErr = none)
    (hdec : List.Forall₂ (fun d ds => decodeDataset d = .ok ds)
      (w.store.documents "enbuild" "MlDataset") dss) :
    (connectAndRetrieveDatasets env w).1.2 = none ∧
    ((connectAndRetrieveDatasets env w).1.1).getD [] = dss ∧
    dss.length = (w.store.documents "enbuild" "MlDataset").length ∧
    (getAllDatasets env ResponseWriter.new req w).1.Code = StatusOK ∧
    (∃ j, (getAllDatasets env ResponseWriter.new req w).1.json = some j) ∧
    (w.store.documents "enbuild" "MlDataset" ≠ [] →
      (getAllDatasets env ResponseWriter.new req w).1.json
        = some (.arr (dss.map Dataset.toJson))) := by
  have hret := connectAndRetrieveDatasets_decoded env w dss hc hp hf hcur hdec
  have hlen := hdec.length_eq
  rcases hres : connectAndRetrieveDatasets env w with ⟨⟨r, e⟩, w1⟩
  rw [hres] at hret
  simp only [Prod.mk.injEq] at hret
  obtain ⟨rfl, rfl⟩ := hret
  have hall : getAllDatasets env ResponseWriter.new req w =
      ((ResponseWriter.new.headerSet "Content-Type" "application/json").Write
        (.json (DatasetSlice.toJson (if dss = [] then none else some dss))), w1) := by
    simp [getAllDatasets, hres, jsonEncode]
  rw [hall]
  refine ⟨rfl, ?_, hlen.symm, rfl, ⟨_, rfl⟩, ?_⟩
  · by_cases h : dss = [] <;> simp [h]
  · intro hne
    have hds : dss ≠ [] := by
      intro h
      rw [h] at hlen
      exact hne (List.length_eq_zero.mp hlen)
    simp [ResponseWriter.json, ResponseWriter.Write, ResponseWriter.WriteHeader,
      ResponseWriter.headerSet, ResponseWriter.new, DatasetSlice.toJson, hds]

theorem sampleData_decoded : decodeDataset sampleData = .ok seedDataset := rfl

/-- C4 as amended, at a concrete input: the seeded store. -/
theorem getAllDatasets_decodable_witness :
    List.Forall₂ (fun d ds => decodeDataset d = .ok ds)
      (World.seeded.store.documents "enbuild" "MlDataset") [seedDataset] ∧
    (connectAndRetrieveDatasets Env.reachable World.seeded).1.2 = none ∧
    ((connectAndRetrieveDatasets Env.reachable World.seeded).1.1).getD [] = [seedDataset] ∧
    [seedDataset].length = (World.seeded.store.documents "enbuild" "MlDataset").length ∧
    (getAllDatasets Env.reachable ResponseWriter.new Request.list World.seeded).1.Code
      = StatusOK ∧
    (∃ j, (getAllDatasets Env.reachable ResponseWriter.new Request.list World.seeded).1.json
      = some j) ∧
    (World.seeded.store.documents "enbuild" "MlDataset" ≠ [] →
      (getAllDatasets Env.reachable ResponseWriter.new Request.list World.seeded).1.json
        = some (.arr ([seedDataset].map Dataset.toJson))) :=
  ⟨List.Forall₂.cons sampleData_decoded List.Forall₂.nil,
   getAllDatasets_decodable Env.reachable World.seeded Request.list [seedDataset]
     rfl rfl rfl rfl (List.Forall₂.cons sampleData_decoded List.Forall₂.nil)⟩

/-- C4, the claim as stated fails: a reachable collection whose one document does not
decode makes `getAllDatasets` respond 500, with a plain-text body and no JSON array. -/
theorem getAllDatasets_not_always_ok :
    World.onlyMalformed.store.documents "enbuild" "MlDataset" = [malformedDocument] ∧
    (getAllDatasets Env.reachable ResponseWriter.new Request.list World.onlyMalformed).1.Code
      = StatusInternalServerError ∧
    (getAllDatasets Env.reachable ResponseWriter.new Request.list World.onlyMalformed).1.json
      = none := by
  decide

/-- For an empty collection `connectAndRetrieveDatasets` returns the nil slice, which the
encoder writes as `null`: the body of the response 200 is not the empty JSON array. -/
theorem getAllDatasets_empty_null :
    World.empty.store.documents "enbuild" "MlDataset" = [] ∧
    (connectAndRetrieveDatasets Env.reachable World.empty).1 = (none, none) ∧
    (getAllDatasets Env.reachable ResponseWriter.new Request.list World.empty).1.Code
      = StatusOK ∧
    (getAllDatasets Env.reachable ResponseWriter.new Request.list World.empty).1.json
      = some .null ∧
    (getAllDatasets Env.reachable ResponseWriter.new Request.list World.empty).1.json
      ≠ some (.arr []) := by
  decide
theorem field_snoc (d : Document) (kv : String × BsonValue) (tag : String) :
    Document.field (d ++ [kv]) tag =
      if ToLower kv.1 = tag then some kv.2 else Document.field d tag := by
  unfold Document.field
  rw [List.reverse_append]
  simp only [List.reverse_cons, List.reverse_nil, List.nil_append, List.singleton_append,
    List.find?_cons]
  by_cases h : ToLower kv.1 = tag
  · simp [h]
  · have hb : (ToLower kv.1 == tag) = false := by simpa using h
    rw [hb, if_neg h]

theorem decodeElements_snoc (d : Document) (kv : String × BsonValue) (ds0 : Dataset) :
    decodeElements (d ++ [kv]) ds0 =
      match decodeElements d ds0 with
      | .ok ds1 => decodeElement ds1 kv
      | .error e => .error e := by
  induction d generalizing ds0 with
  | nil =>
    simp only [List.nil_append, decodeElements]
    cases decodeElement ds0 kv <;> rfl
  | cons x rest ih =>
    simp only [List.cons_append, decodeElements]
    cases decodeElement ds0 x with
    | error e => rfl
    | ok ds1 => exact ih ds1

theorem intFieldDecoded_snoc_same (d : Document) (kv : String × BsonValue) (tag : String)
    (n : Int) (hk : ToLower kv.1 = tag) (hv : IntDecodeValue kv.2 = .ok n) :
    intFieldDecoded (d ++ [kv]) tag n := by
  unfold intFieldDecoded
  rw [field_snoc, if_pos hk]
  refine ⟨fun v h => ?_, fun h => by cases h⟩
  cases h
  exact hv

theorem intFieldDecoded_snoc_other (d : Document) (kv : String × BsonValue) (tag : String)
    (n : Int) (hk : ¬ ToLower kv.1 = tag) (h : intFieldDecoded d tag n) :
    intFieldDecoded (d ++ [kv]) tag n := by
  unfold intFieldDecoded at *
  rw [field_snoc, if_neg hk]
  exact h

theorem stringFieldDecoded_snoc_same (d : Document) (kv : String × BsonValue) (tag : String)
    (value : String) (hk : ToLower kv.1 = tag) (hv : StringDecodeValue kv.2 = .ok value) :
    stringFieldDecoded (d ++ [kv]) tag value := by
  unfold stringFieldDecoded
  rw [field_snoc, if_pos hk]
  refine ⟨fun v h => ?_, fun h => by cases h⟩
  cases h
  exact hv

theorem stringFieldDecoded_snoc_other (d : Document) (kv : String × BsonValue) (tag : String)
    (value : String) (hk : ¬ ToLower kv.1 = tag) (h : stringFieldDecoded d tag value) :
    stringFieldDecoded (d ++ [kv]) tag value := by
  unfold stringFieldDecoded at *
  rw [field_snoc, if_neg hk]
  exact h

theorem decodeDataset_fields (d : Document) (ds : Dataset) (h : decodeDataset d = .ok ds) :
    intFieldDecoded d "_id" ds.ID ∧
    stringFieldDecoded d "name" ds.Name ∧
    stringFieldDecoded d "data" ds.Data ∧
    stringFieldDecoded d "download_link" ds.DownloadLink ∧
    stringFieldDecoded d "short_description" ds.ShortDescription ∧
    stringFieldDecoded d "long_description" ds.LongDescription := by
  unfold decodeDataset at h
  induction d using List.reverseRecOn generalizing ds with
  | nil =>
    simp only [decodeElements, Except.ok.injEq] at h
    subst h
    refine ⟨⟨?_, fun _ => rfl⟩, ⟨?_, fun _ => rfl⟩, ⟨?_, fun _ => rfl⟩, ⟨?_, fun _ => rfl⟩,
      ⟨?_, fun _ => rfl⟩, ⟨?_, fun _ => rfl⟩⟩ <;>
    · intro v hv
      cases hv
  | append_singleton d kv ih =>
    rw [decodeElements_snoc] at h
    cases h0 : decodeElements d zeroDataset with
    | error e => rw [h0] at h; cases h
    | ok ds0 =>
      rw [h0] at h
      obtain ⟨i0, i1, i2, i3, i4, i5⟩ := ih ds0 h0
      simp only [decodeElement] at h
      by_cases k0 : ToLower kv.1 = "_id"
      · rw [if_pos k0] at h
        cases hv : IntDecodeValue kv.2 with
        | error e => rw [hv] at h; cases h
        | ok n =>
          rw [hv] at h
          simp only [Except.ok.injEq] at h
          subst h
          have k1 : ¬ ToLower kv.1 = "name" := by rw [k0]; decide
          have k2 : ¬ ToLower kv.1 = "data" := by rw [k0]; decide
          have k3 : ¬ ToLower kv.1 = "download_link" := by rw [k0]; decide
          have k4 : ¬ ToLower kv.1 = "short_description" := by rw [k0]; decide
          have k5 : ¬ ToLower kv.1 = "long_description" := by rw [k0]; decide
          exact ⟨intFieldDecoded_snoc_same d kv _ _ k0 hv,
            stringFieldDecoded_snoc_other d kv _ _ k1 i1,
            stringFieldDecoded_snoc_other d kv _ _ k2 i2,
            stringFieldDecoded_snoc_other d kv _ _ k3 i3,
            stringFieldDecoded_snoc_other d kv _ _ k4 i4,
            stringFieldDecoded_snoc_other d kv _ _ k5 i5⟩
      · rw [if_neg k0] at h
        by_cases k1 : ToLower kv.1 = "name"
        · rw [if_pos k1] at h
          cases hv : StringDecodeValue kv.2 with
          | error e => rw [hv] at h; cases h
          | ok n =>
            rw [hv] at h
            simp only [Except.ok.injEq] at h
            subst h
            have k2 : ¬ ToLower kv.1 = "data" := by rw [k1]; decide
            have k3 : ¬ ToLower kv.1 = "download_link" := by rw [k1]; decide
            have k4 : ¬ ToLower kv.1 = "short_description" := by rw [k1]; decide
            have k5 : ¬ ToLower kv.1 = "long_description" := by rw [k1]; decide
            exact ⟨intFieldDecoded_snoc_other d kv _ _ k0 i0,
              stringFieldDecoded_snoc_same d kv _ _ k1 hv,
              stringFieldDecoded_snoc_other d kv _ _ k2 i2,
              stringFieldDecoded_snoc_other d kv _ _ k3 i3,
              stringFieldDecoded_snoc_other d kv _ _ k4 i4,
              stringFieldDecoded_snoc_other d kv _ _ k5 i5⟩
        · rw [if_neg k1] at h
          by_cases k2 : ToLower kv.1 = "data"
          · rw [if_pos k2] at h
            cases hv : StringDecodeValue kv.2 with
            | error e => rw [hv] at h; cases h
            | ok n =>
              rw [hv] at h
              simp only [Except.ok.injEq] at h
              subst h
              have k3 : ¬ ToLower kv.1 = "download_link" := by rw [k2]; decide
              have k4 : ¬ ToLower kv.1 = "short_description" := by rw [k2]; decide
              have k5 : ¬ ToLower kv.1 = "long_description" := by rw [k2]; decide
              exact ⟨intFieldDecoded_snoc_other d kv _ _ k0 i0,
                stringFieldDecoded_snoc_other d kv _ _ k1 i1,
                stringFieldDecoded_snoc_same d kv _ _ k2 hv,
                stringFieldDecoded_snoc_other d kv _ _ k3 i3,
                stringFieldDecoded_snoc_other d kv _ _ k4 i4,
                stringFieldDecoded_snoc_other d kv _ _ k5 i5⟩
          · rw [if_neg k2] at h
            by_cases k3 : ToLower kv.1 = "download_link"
            · rw [if_pos k3] at h
              cases hv : StringDecodeValue kv.2 with
              | error e => rw [hv] at h; cases h
              | ok n =>
                rw [hv] at h
                simp only [Except.ok.injEq] at h
                subst h
                have k4 : ¬ ToLower kv.1 = "short_description" := by rw [k3]; decide
                have k5 : ¬ ToLower kv.1 = "long_description" := by rw [k3]; decide
                exact ⟨intFieldDecoded_snoc_other d kv _ _ k0 i0,
                  stringFieldDecoded_snoc_other d kv _ _ k1 i1,
                  stringFieldDecoded_snoc_other d kv _ _ k2 i2,
                  stringFieldDecoded_snoc_same d kv _ _ k3 hv,
                  stringFieldDecoded_snoc_other d kv _ _ k4 i4,
                  stringFieldDecoded_snoc_other d kv _ _ k5 i5⟩
            · rw [if_neg k3] at h
              by_cases k4 : ToLower kv.1 = "short_description"
              · rw [if_pos k4] at h
                cases hv : StringDecodeValue kv.2 with
                | error e => rw [hv] at h; cases h
                | ok n =>
                  rw [hv] at h
                  simp only [Except.ok.injEq] at h
                  subst h
                  have k5 : ¬ ToLower kv.1 = "long_description" := by rw [k4]; decide
                  exact ⟨intFieldDecoded_snoc_other d kv _ _ k0 i0,
                    stringFieldDecoded_snoc_other d kv _ _ k1 i1,
                    stringFieldDecoded_snoc_other d kv _ _ k2 i2,
                    stringFieldDecoded_snoc_other d kv _ _ k3 i3,
                    stringFieldDecoded_snoc_same d kv _ _ k4 hv,
                    stringFieldDecoded_snoc_other d kv _ _ k5 i5⟩
              · rw [if_neg k4] at h
                by_cases k5 : ToLower kv.1 = "long_description"
                · rw [if_pos k5] at h
                  cases hv : StringDecodeValue kv.2 with
                  | error e => rw [hv] at h; cases h
                  | ok n =>
                    rw [hv] at h
                    simp only [Except.ok.injEq] at h
                    subst h
                    exact ⟨intFieldDecoded_snoc_other d kv _ _ k0 i0,
                      stringFieldDecoded_snoc_other d kv _ _ k1 i1,
                      stringFieldDecoded_snoc_other d kv _ _ k2 i2,
                      stringFieldDecoded_snoc_other d kv _ _ k3 i3,
                      stringFieldDecoded_snoc_other d kv _ _ k4 i4,
                      stringFieldDecoded_snoc_same d kv _ _ k5 hv⟩
                · rw [if_neg k5] at h
                  simp only [Except.ok.injEq] at h
                  subst h
                  exact ⟨intFieldDecoded_snoc_other d kv _ _ k0 i0,
                    stringFieldDecoded_snoc_other d kv _ _ k1 i1,
                    stringFieldDecoded_snoc_other d kv _ _ k2 i2,
                    stringFieldDecoded_snoc_other d kv _ _ k3 i3,
                    stringFieldDecoded_snoc_other d kv _ _ k4 i4,
                    stringFieldDecoded_snoc_other d kv _ _ k5 i5⟩

theorem toJson_get_id (ds : Dataset) :
    (Dataset.toJson ds).get "_id" = if ds.ID = 0 then none else some (.num ds.ID) := by
  unfold Dataset.toJson omitemptyInt omitemptyString JsonObject.get
  by_cases h0 : ds.ID = 0 <;> by_cases h1 : ds.Name = "" <;> by_cases h2 : ds.Data = "" <;>
  by_cases h3 : ds.DownloadLink = "" <;> by_cases h4 : ds.ShortDescription = "" <;>
  by_cases h5 : ds.LongDescription = "" <;>
  simp [h0, h1, h2, h3, h4, h5]

theorem toJson_get_name (ds : Dataset) :
    (Dataset.toJson ds).get "name" = if ds.Name = "" then none else some (.str ds.Name) := by
  unfold Dataset.toJson omitemptyInt omitemptyString JsonObject.get
  by_cases h0 : ds.ID = 0 <;> by_cases h1 : ds.Name = "" <;> by_cases h2 : ds.Data = "" <;>
  by_cases h3 : ds.DownloadLink = "" <;> by_cases h4 : ds.ShortDescription = "" <;>
  by_cases h5 : ds.LongDescription = "" <;>
  simp [h0, h1, h2, h3, h4, h5]

theorem toJson_get_data (ds : Dataset) :
    (Dataset.toJson ds).get "data" = if ds.Data = "" then none else some (.str ds.Data) := by
  unfold Dataset.toJson omitemptyInt omitemptyString JsonObject.get
  by_cases h0 : ds.ID = 0 <;> by_cases h1 : ds.Name = "" <;> by_cases h2 : ds.Data = "" <;>
  by_cases h3 : ds.DownloadLink = "" <;> by_cases h4 : ds.ShortDescription = "" <;>
  by_cases h5 : ds.LongDescription = "" <;>
  simp [h0, h1, h2, h3, h4, h5]

theorem toJson_get_download_link (ds : Dataset) :
    (Dataset.toJson ds).get "download_link"
      = if ds.DownloadLink = "" then none else some (.str ds.DownloadLink) := by
  unfold Dataset.toJson omitemptyInt omitemptyString JsonObject.get
  by_cases h0 : ds.ID = 0 <;> by_cases h1 : ds.Name = "" <;> by_cases h2 : ds.Data = "" <;>
  by_cases h3 : ds.DownloadLink = "" <;> by_cases h4 : ds.ShortDescription = "" <;>
  by_cases h5 : ds.LongDescription = "" <;>
  simp [h0, h1, h2, h3, h4, h5]

theorem toJson_get_short_description (ds : Dataset) :
    (Dataset.toJson ds).get "short_description"
      = if ds.ShortDescription = "" then none else some (.str ds.ShortDescription) := by
  unfold Dataset.toJson omitemptyInt omitemptyString JsonObject.get
  by_cases h0 : ds.ID = 0 <;> by_cases h1 : ds.Name = "" <;> by_cases h2 : ds.Data = "" <;>
  by_cases h3 : ds.DownloadLink = "" <;> by_cases h4 : ds.ShortDescription = "" <;>
  by_cases h5 : ds.LongDescription = "" <;>
  simp [h0, h1, h2, h3, h4, h5]

theorem toJson_get_long_description (ds : Dataset) :
    (Dataset.toJson ds).get "long_description"
      = if ds.LongDescription = "" then none else some (.str ds.LongDescription) := by
  unfold Dataset.toJson omitemptyInt omitemptyString JsonObject.get
  by_cases h0 : ds.ID = 0 <;> by_cases h1 : ds.Name = "" <;> by_cases h2 : ds.Data = "" <;>
  by_cases h3 : ds.DownloadLink = "" <;> by_cases h4 : ds.ShortDescription = "" <;>
  by_cases h5 : ds.LongDescription = "" <;>
  simp [h0, h1, h2, h3, h4, h5]

theorem stringFieldDecoded_agrees (d : Document) (tag : String) (value : String)
    (h : stringFieldDecoded d tag value) : fieldAgrees d tag value := by
  refine ⟨fun s hs => ?_, h.2⟩
  have := h.1 _ hs
  simp only [StringDecodeValue, Except.ok.injEq] at this
  exact this.symm

theorem findByID_hasID (s : Store) (db coll : String) (id : Int) (d : Document)
    (h : s.findByID db coll id = some d) : d.hasID id = true := by
  unfold Store.findByID at h
  have := @List.find?_some Document (fun d => d.hasID id) d (s.documents db coll) h
  simpa using this

theorem decoded_identifier (d : Document) (id n : Int) (hid : d.hasID id = true)
    (hsame : d.field "_id" = d.lookup "_id") (hdec : intFieldDecoded d "_id" n) :
    n = id := by
  unfold Document.hasID at hid
  cases hl : d.lookup "_id" with
  | none => rw [hl] at hid; cases hid
  | some v =>
    rw [hl] at hid hsame
    have hv := hdec.1 v hsame
    cases v with
    | int m =>
      simp only [BsonValue.number?, beq_iff_eq, Option.some.injEq] at hid
      simp only [IntDecodeValue, Except.ok.injEq] at hv
      rw [← hv, hid]
    | decimal m => simp [IntDecodeValue] at hv
    | str t => simp [BsonValue.number?] at hid
    | other t a b => simp [BsonValue.number?] at hid

theorem carriesField_of_member (res : ResponseWriter) (d : Document) (key value : String)
    (hagree : fieldAgrees d key value)
    (hmem : res.member key = if value = "" then none else some (.str value)) :
    carriesField res d key := by
  intro s hs hl
  have := hagree.1 s hl
  subst this
  simp [hmem, hs]

/-- C1, as amended. For every integer id and every document the collection holds under
that id, if the document decodes into the `Dataset` shape and its `_id` element is the one
the driver decodes into the identifier (no later element has a key that is `_id` in
another letter case), then with the database reachable (connecting, pinging and querying
do not fail) `connectAndRetrieveDataset` returns no error and a record equal to the stored
document field for field (the identifier, and for each of the five string fields of
`Dataset` the string the document stores for it, the empty string when it stores none),
and `getDataset`, for a request whose id variable parses to that id, responds 200 with a
JSON object that carries the stored identifier under `_id` when it is not 0 and each of
the five string fields that the document stores with a string that is not empty. -/
theorem getDataset_stored (env : Env) (w : World) (id : Int) (d : Document) (ds : Dataset)
    (req : Request)
    (hc : env.connectErr = none) (hp : env.pingErr = none) (hq : env.findOneErr = none)
    (hstored : w.store.findByID "enbuild" "MlDataset" id = some d)
    (hsame : d.field "_id" = d.lookup "_id")
    (hdec : decodeDataset d = .ok ds)
    (hreq : Atoi (req.var "id") = (id, none)) :
    (connectAndRetrieveDataset env id w).1 = (some ds, none) ∧
    (ds.ID = id ∧ fieldAgrees d "name" ds.Name ∧ fieldAgrees d "data" ds.Data ∧
      fieldAgrees d "download_link" ds.DownloadLink ∧
      fieldAgrees d "short_description" ds.ShortDescription ∧
      fieldAgrees d "long_description" ds.LongDescription) ∧
    (getDataset env ResponseWriter.new req w).1.Code = StatusOK ∧
    (getDataset env ResponseWriter.new req w).1.json = some (.obj ds.toJson) ∧
    (id ≠ 0 → (getDataset env ResponseWriter.new req w).1.member "_id" = some (.num id)) ∧
    (carriesField (getDataset env ResponseWriter.new req w).1 d "name" ∧
      carriesField (getDataset env ResponseWriter.new req w).1 d "data" ∧
      carriesField (getDataset env ResponseWriter.new req w).1 d "download_link" ∧
      carriesField (getDataset env ResponseWriter.new req w).1 d "short_description" ∧
      carriesField (getDataset env ResponseWriter.new req w).1 d "long_description") := by
  obtain ⟨h0, h1, h2, h3, h4, h5⟩ := decodeDataset_fields d ds hdec
  have hid : ds.ID = id :=
    decoded_identifier d id ds.ID (findByID_hasID _ _ _ _ _ hstored) hsame h0
  have a1 := stringFieldDecoded_agrees d _ _ h1
  have a2 := stringFieldDecoded_agrees d _ _ h2
  have a3 := stringFieldDecoded_agrees d _ _ h3
  have a4 := stringFieldDecoded_agrees d _ _ h4
  have a5 := stringFieldDecoded_agrees d _ _ h5
  have hret : (connectAndRetrieveDataset env id w).1 = (some ds, none) := by
    simp [connectAndRetrieveDataset, ConnectDB_reachable env w hc hp, Client.FindOneDecode,
      World.log, hq, hstored, hdec]
  rcases hres : connectAndRetrieveDataset env id w with ⟨⟨r, e⟩, w1⟩
  rw [hres] at hret
  simp only [Prod.mk.injEq] at hret
  obtain ⟨rfl, rfl⟩ := hret
  have hget : getDataset env ResponseWriter.new req w =
      ((ResponseWriter.new.headerSet "Content-Type" "application/json").Write
        (.json (.obj ds.toJson)), w1) := by
    simp [getDataset, hreq, hres, jsonEncode]
  have hmember : ∀ key, ((ResponseWriter.new.headerSet "Content-Type" "application/json").Write
      (.json (.obj ds.toJson))).member key = ds.toJson.get key := by
    intro key
    rfl
  rw [hget]
  refine ⟨rfl, ⟨hid, a1, a2, a3, a4, a5⟩, rfl, rfl, ?_, ?_, ?_, ?_, ?_, ?_⟩
  · intro hne
    rw [hmember, toJson_get_id, hid]
    simp [hne]
  · exact carriesField_of_member _ d _ _ a1 (by rw [hmember, toJson_get_name])
  · exact carriesField_of_member _ d _ _ a2 (by rw [hmember, toJson_get_data])
  · exact carriesField_of_member _ d _ _ a3 (by rw [hmember, toJson_get_download_link])
  · exact carriesField_of_member _ d _ _ a4 (by rw [hmember, toJson_get_short_description])
  · exact carriesField_of_member _ d _ _ a5 (by rw [hmember, toJson_get_long_description])

/-- C1 as amended, at a concrete input: the seed document, requested as `1`. -/
theorem getDataset_stored_witness :
    World.seeded.store.findByID "enbuild" "MlDataset" 1 = some sampleData ∧
    sampleData.field "_id" = sampleData.lookup "_id" ∧
    decodeDataset sampleData = .ok seedDataset ∧
    Atoi ((Request.forID "1").var "id") = (1, none) ∧
    (connectAndRetrieveDataset Env.reachable 1 World.seeded).1 = (some seedDataset, none) ∧
    (getDataset Env.reachable ResponseWriter.new (Request.forID "1") World.seeded).1.Code
      = StatusOK ∧
    (getDataset Env.reachable ResponseWriter.new (Request.forID "1") World.seeded).1.member
      "_id" = some (.num 1) ∧
    carriesField (getDataset Env.reachable ResponseWriter.new (Request.forID "1")
      World.seeded).1 sampleData "name" :=
  have h := getDataset_stored Env.reachable World.seeded 1 sampleData seedDataset
    (Request.forID "1") rfl rfl rfl (by decide) (by decide) sampleData_decoded (by decide)
  ⟨by decide, by decide, sampleData_decoded, by decide, h.1, h.2.2.1,
    h.2.2.2.2.1 (by decide), h.2.2.2.2.2.1⟩

/-- C1, the claim as stated fails at id 0: the collection holds a document under the
identifier 0, `connectAndRetrieveDataset` returns it without error, and `getDataset`
responds 200 with a JSON object that has no member `_id` (and none for the empty name). -/
theorem getDataset_zero_id_omitted :
    World.withZero.store.findByID "enbuild" "MlDataset" 0 = some zeroDocument ∧
    (connectAndRetrieveDataset Env.reachable 0 World.withZero).1
      = (some { ID := 0, Name := "", Data := "rows", DownloadLink := "",
                ShortDescription := "", LongDescription := "" }, none) ∧
    (getDataset Env.reachable ResponseWriter.new (Request.forID "0") World.withZero).1.Code
      = StatusOK ∧
    (getDataset Env.reachable ResponseWriter.new (Request.forID "0") World.withZero).1.json
      = some (.obj [("data", .str "rows")]) ∧
    (getDataset Env.reachable ResponseWriter.new (Request.forID "0") World.withZero).1.member
      "_id" = none ∧
    (getDataset Env.reachable ResponseWriter.new (Request.forID "0") World.withZero).1.member
      "name" = none := by
  decide

/-! ## The decoder on unusual documents -/

/-- A key in another letter case is decoded into its field: the document with `Name` gives
a record with that name, and the response carries it under `name`. -/
theorem getDataset_capital_key :
    (connectAndRetrieveDataset Env.reachable 5 (World.holding [capitalKeyDocument])).1
      = (some { ID := 5, Name := "Upper", Data := "", DownloadLink := "",
                ShortDescription := "", LongDescription := "" }, none) ∧
    (getDataset Env.reachable ResponseWriter.new (Request.forID "5")
      (World.holding [capitalKeyDocument])).1.json
      = some (.obj [("_id", .num 5), ("name", .str "Upper")]) := by
  decide

/-- A number under a key of a string field fails the decoding, in any letter case of the
key: `getDataset` responds 500 and `getAllDatasets` does too. -/
theorem decode_number_as_name :
    (∀ ds, decodeDataset numberAsNameDocument ≠ .ok ds) ∧
    (getDataset Env.reachable ResponseWriter.new (Request.forID "5")
      (World.holding [numberAsNameDocument])).1.Code = StatusInternalServerError ∧
    (getAllDatasets Env.reachable ResponseWriter.new Request.list
      (World.holding [numberAsNameDocument])).1.Code = StatusInternalServerError := by
  refine ⟨?_, by decide, by decide⟩
  intro ds h
  cases h

/-- An identifier outside the int64 range fails the decoding: `getAllDatasets` responds
500. -/
theorem decode_huge_identifier :
    (∀ ds, decodeDataset hugeIdentifierDocument ≠ .ok ds) ∧
    (getAllDatasets Env.reachable ResponseWriter.new Request.list
      (World.holding [hugeIdentifierDocument])).1.Code = StatusInternalServerError := by
  refine ⟨?_, by decide⟩
  intro ds h
  cases h

/-- An element that is no field of `Dataset` is skipped: the record and the response do
not have it. -/
theorem getDataset_extra_field :
    (connectAndRetrieveDataset Env.reachable 5 (World.holding [extraFieldDocument])).1
      = (some { ID := 5, Name := "Named", Data := "", DownloadLink := "",
                ShortDescription := "", LongDescription := "" }, none) ∧
    (getDataset Env.reachable ResponseWriter.new (Request.forID "5")
      (World.holding [extraFieldDocument])).1.json
      = some (.obj [("_id", .num 5), ("name", .str "Named")]) ∧
    (getDataset Env.reachable ResponseWriter.new (Request.forID "5")
      (World.holding [extraFieldDocument])).1.member "owner" = none := by
  decide

/-- A later element `_ID` overwrites the identifier: the document the store holds under 5
gives a record, and a response, with the identifier 7. -/
theorem getDataset_second_identifier :
    (World.holding [secondIdentifierDocument]).store.findByID "enbuild" "MlDataset" 5
      = some secondIdentifierDocument ∧
    secondIdentifierDocument.field "_id" ≠ secondIdentifierDocument.lookup "_id" ∧
    (connectAndRetrieveDataset Env.reachable 5 (World.holding [secondIdentifierDocument])).1
      = (some { ID := 7, Name := "", Data := "", DownloadLink := "",
                ShortDescription := "", LongDescription := "" }, none) ∧
    (getDataset Env.reachable ResponseWriter.new (Request.forID "5")
      (World.holding [secondIdentifierDocument])).1.json
      = some (.obj [("_id", .num 7)]) := by
  decide

/-! ## The route of `getDataset` -/

theorem idPath_toList (seg : String) :
    ("/api/mlDataset/" ++ seg).toList = "/api/mlDataset/".toList ++ seg.toList := by
  simp [String.toList, String.data_append]

theorem matchPath_digits (seg : String) :
    (PathTemplate.digits "/api/mlDataset/" "id").matchPath ("/api/mlDataset/" ++ seg) =
      if seg.toList ≠ [] ∧ seg.toList.all Char.isDigit = true then some [("id", seg)]
      else none := by
  have hlen : "/api/mlDataset/".length = "/api/mlDataset/".toList.length := rfl
  simp only [PathTemplate.matchPath, idPath_toList, hlen, List.drop_left, List.take_left,
    true_and]
  split <;> rfl

theorem matchPath_list (seg : String) :
    (PathTemplate.literal "/api/mlDataset").matchPath ("/api/mlDataset/" ++ seg) = none := by
  have h : ("/api/mlDataset/" ++ seg) ≠ "/api/mlDataset" := by
    intro h
    have := congrArg String.length h
    simp [String.length_append] at this
    have h15 : "/api/mlDataset/".length = 15 := by decide
    have h14 : "/api/mlDataset".length = 14 := by decide
    omega
  simp [PathTemplate.matchPath, h]

theorem matchPath_healthz (seg : String) :
    (PathTemplate.literal "/api/healthz").matchPath ("/api/mlDataset/" ++ seg) = none := by
  have h : ("/api/mlDataset/" ++ seg) ≠ "/api/healthz" := by
    intro h
    have := congrArg String.toList h
    rw [idPath_toList] at this
    have h5 := congrArg (fun l => l.get? 5) this
    simp at h5
  simp [PathTemplate.matchPath, h]

theorem routerMatch_digits (seg : String)
    (hd : seg.toList ≠ [] ∧ seg.toList.all Char.isDigit = true) :
    routerMatch "GET" ("/api/mlDataset/" ++ seg) routes false
      = .matched .getDataset [("id", seg)] := by
  simp only [routes, routerMatch, matchPath_list, matchPath_digits]
  rw [if_pos hd]
  rfl

theorem routerMatch_not_digits (seg : String)
    (hd : ¬ (seg.toList ≠ [] ∧ seg.toList.all Char.isDigit = true)) :
    routerMatch "GET" ("/api/mlDataset/" ++ seg) routes false = .notFound := by
  simp only [routes, routerMatch, matchPath_list, matchPath_digits, matchPath_healthz]
  rw [if_neg hd]
  rfl

/-- C3, as amended. For every GET request to `/api/mlDataset/` followed by an id segment
that fails integer parsing, the router of `main` with `getDataset` makes no database call
and leaves the world as it is; when the segment is a non-empty string of decimal digits
(too large for an `int`) the response is 400, and when it is not (like `abc`; a single
path segment, so that the path is in canonical form) the route does not match and the
router responds 404. -/
theorem ServeHTTP_unparsable_id (cfg : Config) (env : Env) (w : World) (seg : String)
    (hfail : (Atoi seg).2 ≠ none) :
    (ServeHTTP cfg env "GET" ("/api/mlDataset/" ++ seg) w).2 = w ∧
    ((seg.toList ≠ [] ∧ seg.toList.all Char.isDigit = true) →
      (ServeHTTP cfg env "GET" ("/api/mlDataset/" ++ seg) w).1.Code = StatusBadRequest) ∧
    (¬ (seg.toList ≠ [] ∧ seg.toList.all Char.isDigit = true) → singleSegment seg →
      (ServeHTTP cfg env "GET" ("/api/mlDataset/" ++ seg) w).1.Code = StatusNotFound) := by
  by_cases hd : seg.toList ≠ [] ∧ seg.toList.all Char.isDigit = true
  · have hserve : ServeHTTP cfg env "GET" ("/api/mlDataset/" ++ seg) w =
        (httpError (ResponseWriter.new.headerSet "Content-Type" "application/json")
          "Invalid ID" StatusBadRequest, w) := by
      rcases hat : Atoi seg with ⟨n, e⟩
      rw [hat] at hfail
      cases e with
      | none => exact absurd rfl hfail
      | some err =>
        have hvar : (Request.mk "GET" ("/api/mlDataset/" ++ seg) [("id", seg)]).var "id"
            = seg := by
          simp [Request.var]
        simp only [ServeHTTP, routerMatch_digits seg hd, cors, Handler.serve, getDataset,
          hvar, hat]
        simp
    rw [hserve]
    exact ⟨rfl, fun _ => rfl, fun h _ => absurd hd h⟩
  · have hserve : ServeHTTP cfg env "GET" ("/api/mlDataset/" ++ seg) w =
        (httpError ResponseWriter.new "404 page not found" StatusNotFound, w) := by
      simp only [ServeHTTP, routerMatch_not_digits seg hd]
    rw [hserve]
    exact ⟨rfl, fun h => absurd h hd, fun _ _ => rfl⟩

/-- C3 as amended, at a concrete input: a digit string too large for an `int`. -/
theorem ServeHTTP_unparsable_id_witness :
    (Atoi "99999999999999999999").2 ≠ none ∧
    (ServeHTTP (loadConfig (fun _ => "")) Env.reachable "GET"
      ("/api/mlDataset/" ++ "99999999999999999999") World.seeded).2 = World.seeded ∧
    (ServeHTTP (loadConfig (fun _ => "")) Env.reachable "GET"
      ("/api/mlDataset/" ++ "99999999999999999999") World.seeded).1.Code = StatusBadRequest :=
  have h := ServeHTTP_unparsable_id (loadConfig (fun _ => "")) Env.reachable World.seeded
    "99999999999999999999" (by decide)
  ⟨by decide, h.1, h.2.1 (by decide)⟩

/-- C3, the claim as stated fails: the id segment `abc` fails integer parsing, and the
router of `main` responds 404 to `GET /api/mlDataset/abc`, not 400, since the route of
`getDataset` accepts decimal digits only. -/
theorem ServeHTTP_abc_not_found :
    (Atoi "abc").2 ≠ none ∧
    (ServeHTTP (loadConfig (fun _ => "")) Env.reachable "GET" "/api/mlDataset/abc"
      World.seeded).1.Code = StatusNotFound ∧
    (ServeHTTP (loadConfig (fun _ => "")) Env.reachable "GET" "/api/mlDataset/abc"
      World.seeded).1.Code ≠ StatusBadRequest := by
  decide

/-! ## The health report -/

/-- C5. For every database name and every state of the storage, `ReportHealth` writes the
status `healthy` with HTTP 200 if and only if `ConnectDB` succeeds and the listing of the
databases filtered to that name succeeds with a non-empty list; in every other case
(connection failure, listing failure, empty list) it writes `unhealthy` with HTTP 503. -/
theorem ReportHealth_healthy_iff (env : Env) (dbName : String) (w : World) :
    (((ReportHealth env ResponseWriter.new dbName w).1.member "status" = some (.str "healthy") ∧
        (ReportHealth env ResponseWriter.new dbName w).1.Code = StatusOK) ↔
      ∃ c w1, ConnectDB env w = (.ok c, w1) ∧
        ∃ names, (c.ListDatabaseNames env dbName w1).1 = (names, none) ∧ names ≠ []) ∧
    ((¬ ∃ c w1, ConnectDB env w = (.ok c, w1) ∧
        ∃ names, (c.ListDatabaseNames env dbName w1).1 = (names, none) ∧ names ≠ []) →
      (ReportHealth env ResponseWriter.new dbName w).1.member "status"
        = some (.str "unhealthy") ∧
      (ReportHealth env ResponseWriter.new dbName w).1.Code = StatusServiceUnavailable) := by
  rcases hconn : ConnectDB env w with ⟨r, w1⟩
  cases r with
  | error err =>
    have hrep : (ReportHealth env ResponseWriter.new dbName w).1 =
        ((ResponseWriter.new.headerSet "Content-Type" "application/json").WriteHeader
          StatusServiceUnavailable).Write
          (.json (.obj [("error", .str err.Error), ("status", .str "unhealthy")])) := by
      simp [ReportHealth, hconn, jsonEncode]
    have hno : ¬ ∃ c w2, (Except.error err, w1) = ((Except.ok c : Except GoError Client), w2) ∧
        ∃ names, (c.ListDatabaseNames env dbName w2).1 = (names, none) ∧ names ≠ [] := by
      rintro ⟨c, w2, h, _⟩
      cases h
    rw [hrep]
    refine ⟨⟨fun h => ?_, fun h => absurd h hno⟩, fun _ => ⟨rfl, rfl⟩⟩
    exact absurd (h.2.symm.trans (rfl : _ = StatusServiceUnavailable)) (by decide)
  | ok client =>
    cases hl : env.listDatabasesErr with
    | some e =>
      have hrep : (ReportHealth env ResponseWriter.new dbName w).1 =
          ((ResponseWriter.new.headerSet "Content-Type" "application/json").WriteHeader
            StatusServiceUnavailable).Write
            (.json (.obj [("error", .str e), ("status", .str "unhealthy")])) := by
        simp [ReportHealth, hconn, jsonEncode, Client.ListDatabaseNames, hl, GoError.Error]
      have hno : ¬ ∃ c w2, (Except.ok client, w1) = ((Except.ok c : Except GoError Client), w2) ∧
          ∃ names, (c.ListDatabaseNames env dbName w2).1 = (names, none) ∧ names ≠ [] := by
        rintro ⟨c, w2, _, names, h, _⟩
        simp [Client.ListDatabaseNames, hl] at h
      rw [hrep]
      refine ⟨⟨fun h => ?_, fun h => absurd h hno⟩, fun _ => ⟨rfl, rfl⟩⟩
      exact absurd (h.2.symm.trans (rfl : _ = StatusServiceUnavailable)) (by decide)
    | none =>
      by_cases hempty : w1.store.filter (fun d => d.name == dbName) = []
      · have hrep : (ReportHealth env ResponseWriter.new dbName w).1 =
            ((ResponseWriter.new.headerSet "Content-Type" "application/json").WriteHeader
              StatusServiceUnavailable).Write
              (.json (.obj [("error",
                  .str "MongoDB databse check failed: Can not find Database"),
                ("status", .str "unhealthy")])) := by
          simp [ReportHealth, hconn, jsonEncode, Client.ListDatabaseNames, hl, World.log,
            hempty]
        have hno : ¬ ∃ c w2,
            (Except.ok client, w1) = ((Except.ok c : Except GoError Client), w2) ∧
            ∃ names, (c.ListDatabaseNames env dbName w2).1 = (names, none) ∧ names ≠ [] := by
          rintro ⟨c, w2, h, names, hn, hne⟩
          simp only [Prod.mk.injEq] at h
          obtain ⟨_, rfl⟩ := h
          simp [Client.ListDatabaseNames, hl, World.log, hempty] at hn
          exact hne hn
        rw [hrep]
        refine ⟨⟨fun h => ?_, fun h => absurd h hno⟩, fun _ => ⟨rfl, rfl⟩⟩
        exact absurd (h.2.symm.trans (rfl : _ = StatusServiceUnavailable)) (by decide)
      · have hrep : (ReportHealth env ResponseWriter.new dbName w).1 =
            (ResponseWriter.new.headerSet "Content-Type" "application/json").Write
              (.json (.obj [("status", .str "healthy")])) := by
          have hlen : ¬ (w1.store.filter (fun d => d.name == dbName)).length < 1 := by
            intro h
            exact hempty (List.length_eq_zero.mp (by omega))
          simp only [ReportHealth, hconn, jsonEncode, Client.ListDatabaseNames, hl, World.log,
            List.length_map, hlen, if_false]
        have hyes : ∃ c w2,
            (Except.ok client, w1) = ((Except.ok c : Except GoError Client), w2) ∧
            ∃ names, (c.ListDatabaseNames env dbName w2).1 = (names, none) ∧ names ≠ [] := by
          refine ⟨client, w1, rfl,
            (w1.store.filter (fun d => d.name == dbName)).map (fun d => d.name), ?_, ?_⟩
          · simp only [Client.ListDatabaseNames, hl, World.log]
          · simpa using hempty
        rw [hrep]
        exact ⟨⟨fun _ => hyes, fun _ => ⟨rfl, rfl⟩⟩, fun h => absurd hyes h⟩

/-! ## Collection initialization -/

theorem filter_name_length_one (l : List Collection) (coll : String)
    (hnd : (l.map (fun c => c.name)).Nodup)
    (hex : l.any (fun c => c.name == coll) = true) :
    (l.filter (fun c => c.name == coll)).length = 1 := by
  induction l with
  | nil => simp at hex
  | cons c rest ih =>
    simp only [List.map_cons, List.nodup_cons] at hnd
    by_cases hc : c.name = coll
    · have hrest : rest.filter (fun c => c.name == coll) = [] := by
        rw [List.filter_eq_nil_iff]
        intro x hx hxn
        apply hnd.1
        have : x.name = coll := by simpa using hxn
        rw [hc, ← this]
        exact List.mem_map_of_mem _ hx
      simp [List.filter_cons, hc, hrest]
    · have hex2 : rest.any (fun c => c.name == coll) = true := by
        simpa [hc] using hex
      simp [List.filter_cons, hc, ih hnd.2 hex2]

theorem collections_nodup (s : Store) (db : String) (hwf : s.WellFormed) :
    ((s.collections db).map (fun c => c.name)).Nodup := by
  unfold Store.collections
  cases hf : s.find? (fun d => d.name == db) with
  | none => simp
  | some d => exact hwf.2 d (List.mem_of_find?_eq_some hf)

theorem CreateCollectionIfNotExists_exists_eq (env : Env) (dbName collectionName : String)
    (w : World) (hc : env.connectErr = none) (hp : env.pingErr = none)
    (hl : env.listCollectionsErr = none) (hwf : w.store.WellFormed)
    (hex : w.store.hasCollection dbName collectionName = true) :
    CreateCollectionIfNotExists env dbName collectionName w =
      (none, { store := w.store, openConns := w.openConns,
               trace := w.trace ++ [.Connect, .Ping,
                 .ListCollectionNames dbName collectionName, .Disconnect] }) := by
  have hlen := filter_name_length_one (w.store.collections dbName) collectionName
    (collections_nodup w.store dbName hwf) hex
  simp [CreateCollectionIfNotExists, ConnectDB_reachable env w hc hp,
    Client.ListCollectionNames, World.log, hl, hlen, Client.Disconnect]

/-- C6. For every database name and collection name, calling `CreateCollectionIfNotExists`
on a reachable store (connecting, pinging and listing do not fail) in which that
collection exists returns no error and leaves the store unchanged: no collection is
created, no document is inserted (neither call is made), the counts of collections and of
documents are unchanged; and a second call in a row again returns no error and gives the
same store as the first. -/
theorem CreateCollectionIfNotExists_existing (env : Env) (dbName collectionName : String)
    (w : World) (hc : env.connectErr = none) (hp : env.pingErr = none)
    (hl : env.listCollectionsErr = none) (hwf : w.store.WellFormed)
    (hex : w.store.hasCollection dbName collectionName = true) :
    (CreateCollectionIfNotExists env dbName collectionName w).1 = none ∧
    (CreateCollectionIfNotExists env dbName collectionName w).2.store = w.store ∧
    (CreateCollectionIfNotExists env dbName collectionName w).2.store.collectionCount
      = w.store.collectionCount ∧
    (CreateCollectionIfNotExists env dbName collectionName w).2.store.documentCount
      = w.store.documentCount ∧
    (CreateCollectionIfNotExists env dbName collectionName w).2.trace
      = w.trace ++ [.Connect, .Ping, .ListCollectionNames dbName collectionName,
          .Disconnect] ∧
    (CreateCollectionIfNotExists env dbName collectionName
      (CreateCollectionIfNotExists env dbName collectionName w).2).1 = none ∧
    (CreateCollectionIfNotExists env dbName collectionName
      (CreateCollectionIfNotExists env dbName collectionName w).2).2.store
      = (CreateCollectionIfNotExists env dbName collectionName w).2.store := by
  rw [CreateCollectionIfNotExists_exists_eq env dbName collectionName w hc hp hl hwf hex]
  have hagain := CreateCollectionIfNotExists_exists_eq env dbName collectionName
    { store := w.store, openConns := w.openConns,
      trace := w.trace ++ [.Connect, .Ping, .ListCollectionNames dbName collectionName,
        .Disconnect] } hc hp hl hwf hex
  refine ⟨rfl, rfl, rfl, rfl, rfl, ?_, ?_⟩
  · dsimp only
    rw [hagain]
  · dsimp only
    rw [hagain]

/-- C6 at a concrete input: the default names against the seeded store. -/
theorem CreateCollectionIfNotExists_existing_witness :
    World.seeded.store.WellFormed ∧
    World.seeded.store.hasCollection "enbuild" "MlDataset" = true ∧
    (CreateCollectionIfNotExists Env.reachable "enbuild" "MlDataset" World.seeded).1 = none ∧
    (CreateCollectionIfNotExists Env.reachable "enbuild" "MlDataset" World.seeded).2.store
      = World.seeded.store ∧
    (CreateCollectionIfNotExists Env.reachable "enbuild" "MlDataset"
      (CreateCollectionIfNotExists Env.reachable "enbuild" "MlDataset" World.seeded).2).2.store
      = (CreateCollectionIfNotExists Env.reachable "enbuild" "MlDataset" World.seeded).2.store :=
  have hwf : World.seeded.store.WellFormed := by
    unfold Store.WellFormed
    decide
  have h := CreateCollectionIfNotExists_existing Env.reachable "enbuild" "MlDataset"
    World.seeded rfl rfl rfl hwf (by decide)
  ⟨hwf, by decide, h.1, h.2.1, h.2.2.2.2.2.2⟩

theorem CreateCollectionIfNotExists_create_fails (env : Env) (dbName collectionName : String)
    (w : World) (e : String) (hc : env.connectErr = none) (hp : env.pingErr = none)
    (hl : env.listCollectionsErr = none)
    (hex : w.store.hasCollection dbName collectionName = false)
    (hcreate : env.createCollectionErr = some e) :
    (CreateCollectionIfNotExists env dbName collectionName w).1 = some (.msg e) ∧
    (CreateCollectionIfNotExists env dbName collectionName w).2.store = w.store ∧
    (CreateCollectionIfNotExists env dbName collectionName w).2.trace
      = w.trace ++ [.Connect, .Ping, .ListCollectionNames dbName collectionName,
          .CreateCollection dbName collectionName, .Disconnect] := by
  have hnone : (w.store.collections dbName).filter (fun c => c.name == collectionName) = [] := by
    rw [List.filter_eq_nil_iff]
    intro c hmem hcn
    have hany : w.store.hasCollection dbName collectionName = true := by
      unfold Store.hasCollection
      rw [List.any_eq_true]
      exact ⟨c, hmem, hcn⟩
    rw [hex] at hany
    cases hany
  simp [CreateCollectionIfNotExists, ConnectDB_reachable env w hc hp,
    Client.ListCollectionNames, World.log, hl, hnone, Client.CreateCollection, hcreate,
    Client.Disconnect]

theorem CreateCollectionIfNotExists_insert_fails (env : Env) (dbName collectionName : String)
    (w : World) (e : String) (hc : env.connectErr = none) (hp : env.pingErr = none)
    (hl : env.listCollectionsErr = none)
    (hex : w.store.hasCollection dbName collectionName = false)
    (hcreate : env.createCollectionErr = none) (hinsert : env.insertOneErr = some e) :
    (CreateCollectionIfNotExists env dbName collectionName w).1 = some (.msg e) ∧
    (CreateCollectionIfNotExists env dbName collectionName w).2.trace
      = w.trace ++ [.Connect, .Ping, .ListCollectionNames dbName collectionName,
          .CreateCollection dbName collectionName, .InsertOne dbName collectionName,
          .Disconnect] := by
  have hnone : (w.store.collections dbName).filter (fun c => c.name == collectionName) = [] := by
    rw [List.filter_eq_nil_iff]
    intro c hmem hcn
    have hany : w.store.hasCollection dbName collectionName = true := by
      unfold Store.hasCollection
      rw [List.any_eq_true]
      exact ⟨c, hmem, hcn⟩
    rw [hex] at hany
    cases hany
  simp [CreateCollectionIfNotExists, ConnectDB_reachable env w hc hp,
    Client.ListCollectionNames, World.log, hl, hnone, Client.CreateCollection, hcreate, hex,
    Client.InsertOne, hinsert, Client.Disconnect]

/-- C7, the code at the failing input: listing the collections fails on an empty store. The
call does not return that failure: it goes on to create the collection and to insert the
seed document, and returns no error. -/
theorem CreateCollectionIfNotExists_listing_failure_swallowed :
    (Client.ListCollectionNames {} Env.listingFails "enbuild" "MlDataset" World.empty).1.2
      = some (.msg "context deadline exceeded") ∧
    (CreateCollectionIfNotExists Env.listingFails "enbuild" "MlDataset" World.empty).1 = none ∧
    (CreateCollectionIfNotExists Env.listingFails "enbuild" "MlDataset" World.empty).2.trace
      = [.Connect, .Ping, .ListCollectionNames "enbuild" "MlDataset",
         .CreateCollection "enbuild" "MlDataset", .InsertOne "enbuild" "MlDataset",
         .Disconnect] ∧
    (CreateCollectionIfNotExists Env.listingFails "enbuild" "MlDataset" World.empty).2.store
      = World.seeded.store := by
  decide

/-- With the listing failing on a store that holds the collection, the call goes on to
create the collection and returns the error of the creation, not the one of the listing. -/
theorem CreateCollectionIfNotExists_listing_failure_existing :
    (CreateCollectionIfNotExists Env.listingFails "enbuild" "MlDataset" World.seeded).1
      = some (.msg "(NamespaceExists) Collection already exists.") ∧
    (CreateCollectionIfNotExists Env.listingFails "enbuild" "MlDataset" World.seeded).2.trace
      = [.Connect, .Ping, .ListCollectionNames "enbuild" "MlDataset",
         .CreateCollection "enbuild" "MlDataset", .Disconnect] := by
  decide

/-! ## Startup and the collection that is read -/

/-- C8, the code at the failing input: with the database `catalog` and the collection
`Sets` configured and an empty store, `main` initializes without error and seeds
`catalog.Sets`, and `connectAndRetrieveDatasets` then reads `enbuild.MlDataset` and
returns no record. -/
theorem connectAndRetrieveDatasets_ignores_configuration :
    (main customGetenv Env.reachable World.empty).1
      = .serving { port := ":8081", database := "catalog", collection := "Sets" } ∧
    (main customGetenv Env.reachable World.empty).2.store.documents "catalog" "Sets"
      = [sampleData] ∧
    (connectAndRetrieveDatasets Env.reachable
      (main customGetenv Env.reachable World.empty).2).1 = (none, none) ∧
    (connectAndRetrieveDatasets Env.reachable
      (main customGetenv Env.reachable World.empty).2).2.trace.getLast?
      = some .CursorClose ∧
    Event.Find "enbuild" "MlDataset" ∈ (connectAndRetrieveDatasets Env.reachable
      (main customGetenv Env.reachable World.empty).2).2.trace ∧
    Event.Find "catalog" "Sets" ∉ (connectAndRetrieveDatasets Env.reachable
      (main customGetenv Env.reachable World.empty).2).2.trace := by
  decide

/-- With the default names the collection that is seeded is the one that is read: after
`main` has initialized an empty store, `connectAndRetrieveDatasets` returns exactly the
seed record. -/
theorem connectAndRetrieveDatasets_default_names :
    (main defaultGetenv Env.reachable World.empty).1
      = .serving { port := ":8081", database := "enbuild", collection := "MlDataset" } ∧
    (connectAndRetrieveDatasets Env.reachable
      (main defaultGetenv Env.reachable World.empty).2).1 = (some [seedDataset], none) := by
  decide

/-! ## Connections -/

/-- C10, the code at failing inputs: the not-found path of `connectAndRetrieveDataset`, the
decoding-error path of `connectAndRetrieveDatasets` and the ping failure inside `ConnectDB`
(reached from `ReportHealth` and from `CreateCollectionIfNotExists`) each return with one
more open connection than before the call, and no `Disconnect` in the trace. -/
theorem connections_left_open :
    ((connectAndRetrieveDataset Env.reachable 999 World.seeded).1 = (none, none) ∧
      (connectAndRetrieveDataset Env.reachable 999 World.seeded).2.openConns
        = World.seeded.openConns + 1 ∧
      Event.Disconnect ∉ (connectAndRetrieveDataset Env.reachable 999 World.seeded).2.trace) ∧
    ((connectAndRetrieveDatasets Env.reachable World.malformed).2.openConns
        = World.malformed.openConns + 1 ∧
      Event.Disconnect ∉ (connectAndRetrieveDatasets Env.reachable World.malformed).2.trace) ∧
    ((ReportHealth Env.pingFails ResponseWriter.new "enbuild" World.seeded).2.openConns
        = World.seeded.openConns + 1 ∧
      (CreateCollectionIfNotExists Env.pingFails "enbuild" "MlDataset" World.seeded).2.openConns
        = World.seeded.openConns + 1) := by
  decide

/-- On their successful paths the two retrieval functions do disconnect, and `ReportHealth`
and `CreateCollectionIfNotExists` disconnect on every path that follows a successful
`ConnectDB`. -/
theorem connections_closed_on_success :
    (connectAndRetrieveDataset Env.reachable 1 World.seeded).2.openConns
      = World.seeded.openConns ∧
    (connectAndRetrieveDatasets Env.reachable World.seeded).2.openConns
      = World.seeded.openConns ∧
    (ReportHealth Env.reachable ResponseWriter.new "absent" World.seeded).2.openConns
      = World.seeded.openConns ∧
    (CreateCollectionIfNotExists Env.listingFails "enbuild" "MlDataset" World.seeded).2.openConns
      = World.seeded.openConns := by
  decide

theorem ConnectDB_openConns (env : Env) (w : World) :
    (ConnectDB env w).2.openConns =
      if env.connectErr = none then w.openConns + 1 else w.openConns := by
  unfold ConnectDB mongoConnect Client.Ping World.log
  cases env.connectErr <;> cases env.pingErr <;> simp

theorem ConnectDB_ok_inv (env : Env) (w w1 : World) (c : Client)
    (h : ConnectDB env w = (.ok c, w1)) :
    env.connectErr = none ∧ env.pingErr = none ∧ w1.openConns = w.openConns + 1 := by
  unfold ConnectDB mongoConnect Client.Ping World.log at h
  cases hc : env.connectErr <;> cases hp : env.pingErr <;> simp [hc, hp] at h
  refine ⟨rfl, rfl, ?_⟩
  rw [← h]

theorem ConnectDB_error_inv (env : Env) (w w1 : World) (err : GoError)
    (h : ConnectDB env w = (.error err, w1)) :
    (env.connectErr ≠ none ∧ w1.openConns = w.openConns) ∨
    (env.connectErr = none ∧ env.pingErr ≠ none ∧ w1.openConns = w.openConns + 1) := by
  unfold ConnectDB mongoConnect Client.Ping World.log at h
  cases hc : env.connectErr <;> cases hp : env.pingErr <;> simp [hc, hp] at h <;>
    rw [← h.2] <;> simp

theorem FindOneDecode_openConns (c : Client) (env : Env) (db coll : String) (id : Int)
    (w : World) : (c.FindOneDecode env db coll id w).2.openConns = w.openConns := by
  unfold Client.FindOneDecode World.log
  cases env.findOneErr with
  | some e => rfl
  | none =>
    simp only
    split
    · rfl
    · split <;> rfl

theorem Find_openConns (c : Client) (env : Env) (db coll : String) (w : World) :
    (c.Find env db coll w).2.openConns = w.openConns := by
  unfold Client.Find World.log
  cases env.findErr <;> rfl

/-- Whenever `mongo.Connect` succeeds and `connectAndRetrieveDataset` returns no record
(ping failure, not found, query or decoding error), the call ends with one more open
connection than it started with; when it returns a record the count is unchanged. -/
theorem connectAndRetrieveDataset_openConns (env : Env) (id : Int) (w : World) :
    (connectAndRetrieveDataset env id w).2.openConns =
      if env.connectErr = none ∧ (connectAndRetrieveDataset env id w).1.1 = none
      then w.openConns + 1 else w.openConns := by
  unfold connectAndRetrieveDataset
  rcases hconn : ConnectDB env w with ⟨r, w1⟩
  cases r with
  | error err =>
    rcases ConnectDB_error_inv env w w1 err hconn with ⟨hc, ho⟩ | ⟨hc, _, ho⟩
    · simp [hc, ho]
    · simp [hc, ho]
  | ok client =>
    obtain ⟨hc, _, ho⟩ := ConnectDB_ok_inv env w w1 client hconn
    have hf := FindOneDecode_openConns client env "enbuild" "MlDataset" id w1
    rcases hfind : client.FindOneDecode env "enbuild" "MlDataset" id w1 with ⟨⟨ds, e⟩, w2⟩
    rw [hfind] at hf
    simp only at hf
    cases e with
    | none => simp [hfind, hc, Client.Disconnect, World.log, hf, ho]
    | some err => by_cases he : err = .ErrNoDocuments <;> simp [hfind, hc, he, hf, ho]

/-- Whenever `mongo.Connect` succeeds and `connectAndRetrieveDatasets` returns an error
(ping failure, query, decoding or cursor error), the call ends with one more open
connection than it started with; when it returns no error the count is unchanged. -/
theorem connectAndRetrieveDatasets_openConns (env : Env) (w : World) :
    (connectAndRetrieveDatasets env w).2.openConns =
      if env.connectErr = none ∧ (connectAndRetrieveDatasets env w).1.2 ≠ none
      then w.openConns + 1 else w.openConns := by
  unfold connectAndRetrieveDatasets
  rcases hconn : ConnectDB env w with ⟨r, w1⟩
  cases r with
  | error err =>
    rcases ConnectDB_error_inv env w w1 err hconn with ⟨hc, ho⟩ | ⟨hc, _, ho⟩
    · simp [hc, ho]
    · simp [hc, ho]
  | ok client =>
    obtain ⟨hc, _, ho⟩ := ConnectDB_ok_inv env w w1 client hconn
    obtain ⟨r, w2, hfind⟩ : ∃ r w2, client.Find env "enbuild" "MlDataset" w1 = (r, w2) :=
      ⟨_, _, rfl⟩
    have hf : w2.openConns = w1.openConns := by
      have := Find_openConns client env "enbuild" "MlDataset" w1
      rw [hfind] at this
      exact this
    cases r with
    | error e => simp [hfind, hc, hf, ho]
    | ok cursor =>
      obtain ⟨x, hloop⟩ : ∃ x, cursorLoop env cursor 0 none = x := ⟨_, rfl⟩
      cases x with
      | decodeFailed err => simp [hfind, hloop, hc, hf, ho, cursorClose, World.log]
      | done ds cerr =>
        cases cerr <;>
          simp [hfind, hloop, hc, hf, ho, cursorClose, World.log, Client.Disconnect]

theorem ListCollectionNames_openConns (c : Client) (env : Env) (db coll : String)
    (w : World) : (c.ListCollectionNames env db coll w).2.openConns = w.openConns := by
  unfold Client.ListCollectionNames World.log
  cases env.listCollectionsErr <;> rfl

theorem CreateCollection_openConns (c : Client) (env : Env) (db coll : String) (w : World) :
    (c.CreateCollection env db coll w).2.openConns = w.openConns := by
  unfold Client.CreateCollection World.log
  cases env.createCollectionErr with
  | some e => rfl
  | none =>
    simp only
    split <;> rfl

theorem InsertOne_openConns (c : Client) (env : Env) (db coll : String) (doc : Document)
    (w : World) : (c.InsertOne env db coll doc w).2.openConns = w.openConns := by
  unfold Client.InsertOne World.log
  cases env.insertOneErr with
  | some e => rfl
  | none =>
    simp only
    split <;> rfl

/-- The calls `ReportHealth` and `CreateCollectionIfNotExists` leave a connection open
exactly when `mongo.Connect` succeeds and the ping of `ConnectDB` fails. -/
theorem dao_openConns (env : Env) (res : ResponseWriter) (dbName collectionName : String)
    (w : World) :
    (ReportHealth env res dbName w).2.openConns =
      (if env.connectErr = none ∧ env.pingErr ≠ none then w.openConns + 1
       else w.openConns) ∧
    (CreateCollectionIfNotExists env dbName collectionName w).2.openConns =
      (if env.connectErr = none ∧ env.pingErr ≠ none then w.openConns + 1
       else w.openConns) := by
  constructor
  · unfold ReportHealth
    rcases hconn : ConnectDB env w with ⟨r, w1⟩
    cases r with
    | error err =>
      rcases ConnectDB_error_inv env w w1 err hconn with ⟨hc, ho⟩ | ⟨hc, hp, ho⟩
      · simp [hc, ho]
      · simp [hc, hp, ho]
    | ok client =>
      obtain ⟨hc, hp, ho⟩ := ConnectDB_ok_inv env w w1 client hconn
      simp only [Client.ListDatabaseNames, World.log, Client.Disconnect]
      cases env.listDatabasesErr with
      | some e => simp [hc, hp, ho]
      | none =>
        simp only
        split <;> simp [hc, hp, ho]
  · unfold CreateCollectionIfNotExists
    rcases hconn : ConnectDB env w with ⟨r, w1⟩
    cases r with
    | error err =>
      rcases ConnectDB_error_inv env w w1 err hconn with ⟨hc, ho⟩ | ⟨hc, hp, ho⟩
      · simp [hc, ho]
      · simp [hc, hp, ho]
    | ok client =>
      obtain ⟨hc, hp, ho⟩ := ConnectDB_ok_inv env w w1 client hconn
      obtain ⟨names, lerr, w2, hl⟩ : ∃ names lerr w2,
          client.ListCollectionNames env dbName collectionName w1 = ((names, lerr), w2) :=
        ⟨_, _, _, rfl⟩
      have hw2 : w2.openConns = w1.openConns := by
        have := ListCollectionNames_openConns client env dbName collectionName w1
        rw [hl] at this
        exact this
      by_cases hcond : lerr = none ∧ names.length = 1
      · simp [hl, hcond, Client.Disconnect, World.log, hw2, ho, hc, hp]
      · obtain ⟨cerr, w3, hcr⟩ : ∃ cerr w3,
            client.CreateCollection env dbName collectionName w2 = (cerr, w3) := ⟨_, _, rfl⟩
        have hw3 : w3.openConns = w2.openConns := by
          have := CreateCollection_openConns client env dbName collectionName w2
          rw [hcr] at this
          exact this
        cases cerr with
        | some e => simp [hl, hcond, hcr, Client.Disconnect, World.log, hw2, hw3, ho, hc, hp]
        | none =>
          obtain ⟨ierr, w4, hin⟩ : ∃ ierr w4,
              client.InsertOne env dbName collectionName sampleData w3 = (ierr, w4) :=
            ⟨_, _, rfl⟩
          have hw4 : w4.openConns = w3.openConns := by
            have := InsertOne_openConns client env dbName collectionName sampleData w3
            rw [hin] at this
            exact this
          cases ierr <;>
            simp [hl, hcond, hcr, hin, Client.Disconnect, World.log, hw2, hw3, hw4, ho, hc, hp]

/-! ## Store lemmas -/

theorem find_of_any {α : Type} (p : α → Bool) (l : List α) (h : l.any p = true) :
    ∃ x, l.find? p = some x ∧ p x = true := by
  cases hf : l.find? p with
  | none =>
    rw [List.find?_eq_none] at hf
    obtain ⟨x, hx, hpx⟩ := List.any_eq_true.mp h
    exact absurd hpx (hf x hx)
  | some x => exact ⟨x, rfl, List.find?_some hf⟩

theorem find_none_of_not_any {α : Type} (p : α → Bool) (l : List α) (h : ¬ l.any p = true) :
    l.find? p = none := by
  rw [List.find?_eq_none]
  intro x hx hpx
  exact h (List.any_eq_true.mpr ⟨x, hx, hpx⟩)

theorem find_map_of_preserved {α : Type} (p : α → Bool) (f : α → α) (l : List α)
    (hpf : ∀ x, p (f x) = p x) : (l.map f).find? p = (l.find? p).map f := by
  induction l with
  | nil => rfl
  | cons x rest ih =>
    simp only [List.map_cons, List.find?_cons, hpf, ih]
    cases p x <;> rfl

theorem collections_setCollections (s : Store) (db : String) (cs : List Collection) :
    (s.setCollections db cs).collections db = cs := by
  unfold Store.setCollections Store.collections
  by_cases hany : s.any (fun d => d.name == db) = true
  · obtain ⟨x, hx, hpx⟩ := find_of_any _ s hany
    rw [if_pos hany, find_map_of_preserved _ _ s (by intro d; split <;> rfl), hx]
    simp only [Option.map_some', hpx, if_true]
  · rw [if_neg hany, List.find?_append, find_none_of_not_any _ s hany]
    simp

theorem collections_setCollections_other (s : Store) (db other : String)
    (cs : List Collection) (hne : other ≠ db) :
    (s.setCollections db cs).collections other = s.collections other := by
  unfold Store.setCollections Store.collections
  by_cases hany : s.any (fun d => d.name == db) = true
  · rw [if_pos hany, find_map_of_preserved _ _ s (by intro d; split <;> rfl)]
    cases hf : s.find? (fun d => d.name == other) with
    | none => rfl
    | some x =>
      have hx : x.name = other := by simpa using List.find?_some hf
      have hxd : ¬ x.name = db := fun h => hne (hx.symm.trans h)
      simp [hxd]
  · rw [if_neg hany, List.find?_append]
    cases hf : s.find? (fun d => d.name == other) with
    | none =>
      have : ¬ db = other := fun h => hne h.symm
      simp [this]
    | some x => simp

theorem documents_addCollection (s : Store) (db coll : String)
    (hex : s.hasCollection db coll = false) :
    (s.addCollection db coll).documents db coll = [] := by
  have hnone : (s.collections db).find? (fun c => c.name == coll) = none :=
    find_none_of_not_any _ _ (by unfold Store.hasCollection at hex; simp [hex])
  unfold Store.addCollection Store.documents
  rw [collections_setCollections, List.find?_append, hnone]
  simp

theorem hasCollection_addCollection (s : Store) (db coll : String) :
    (s.addCollection db coll).hasCollection db coll = true := by
  unfold Store.addCollection Store.hasCollection
  rw [collections_setCollections]
  simp

theorem documents_addDocument (s : Store) (db coll : String) (doc : Document)
    (hex : s.hasCollection db coll = true) :
    (s.addDocument db coll doc).documents db coll = s.documents db coll ++ [doc] := by
  unfold Store.addDocument Store.documents
  rw [if_pos hex, collections_setCollections,
    find_map_of_preserved _ _ _ (by intro c; split <;> rfl)]
  obtain ⟨x, hx, hpx⟩ := find_of_any _ _ hex
  rw [hx]
  simp only [Option.map_some', hpx, if_true]

theorem documents_addCollection_other (s : Store) (db coll db2 coll2 : String)
    (hne : ¬ (db2 = db ∧ coll2 = coll)) :
    (s.addCollection db coll).documents db2 coll2 = s.documents db2 coll2 := by
  unfold Store.addCollection Store.documents
  by_cases hdb : db2 = db
  · subst hdb
    have hc : ¬ coll = coll2 := fun h => hne ⟨rfl, h.symm⟩
    rw [collections_setCollections, List.find?_append]
    cases (s.collections db2).find? (fun c => c.name == coll2) <;> simp [hc]
  · rw [collections_setCollections_other _ _ _ _ hdb]

theorem documents_addDocument_other (s : Store) (db coll db2 coll2 : String) (doc : Document)
    (hne : ¬ (db2 = db ∧ coll2 = coll)) :
    (s.addDocument db coll doc).documents db2 coll2 = s.documents db2 coll2 := by
  unfold Store.addDocument Store.documents
  by_cases hex : s.hasCollection db coll = true
  · rw [if_pos hex]
    by_cases hdb : db2 = db
    · subst hdb
      have hc : ¬ coll = coll2 := fun h => hne ⟨rfl, h.symm⟩
      rw [collections_setCollections,
        find_map_of_preserved _ _ _ (by intro c; split <;> rfl)]
      cases hf : (s.collections db2).find? (fun c => c.name == coll2) with
      | none => rfl
      | some x =>
        have hx : x.name = coll2 := by simpa using List.find?_some hf
        have hxc : ¬ x.name = coll := fun h => hc (h.symm.trans hx)
        simp [hxc]
    · rw [collections_setCollections_other _ _ _ _ hdb]
  · rw [if_neg hex]
    by_cases hdb : db2 = db
    · subst hdb
      have hc : ¬ coll = coll2 := fun h => hne ⟨rfl, h.symm⟩
      rw [collections_setCollections, List.find?_append]
      cases (s.collections db2).find? (fun c => c.name == coll2) <;> simp [hc]
    · rw [collections_setCollections_other _ _ _ _ hdb]

/-! ## Initialization of a collection that does not exist -/

/-- On a store that does not hold the collection, with connecting, pinging, creating and
inserting not failing, `CreateCollectionIfNotExists` creates the collection, inserts the
seed document and returns no error, whether the listing has failed or not. -/
theorem CreateCollectionIfNotExists_fresh (env : Env) (dbName collectionName : String)
    (w : World) (hc : env.connectErr = none) (hp : env.pingErr = none)
    (hcr : env.createCollectionErr = none) (hin : env.insertOneErr = none)
    (hex : w.store.hasCollection dbName collectionName = false) :
    CreateCollectionIfNotExists env dbName collectionName w =
      (none, { store := (w.store.addCollection dbName collectionName).addDocument
                 dbName collectionName sampleData,
               openConns := w.openConns,
               trace := w.trace ++ [.Connect, .Ping,
                 .ListCollectionNames dbName collectionName,
                 .CreateCollection dbName collectionName,
                 .InsertOne dbName collectionName, .Disconnect] }) := by
  have hnone : (w.store.collections dbName).filter (fun c => c.name == collectionName) = [] := by
    rw [List.filter_eq_nil_iff]
    intro c hmem hcn
    have hany : w.store.hasCollection dbName collectionName = true := by
      unfold Store.hasCollection
      rw [List.any_eq_true]
      exact ⟨c, hmem, hcn⟩
    rw [hex] at hany
    cases hany
  have hdocs := documents_addCollection w.store dbName collectionName hex
  cases hl : env.listCollectionsErr <;>
    simp [CreateCollectionIfNotExists, ConnectDB_reachable env w hc hp,
      Client.ListCollectionNames, World.log, hl, hnone, Client.CreateCollection, hcr, hex,
      Client.InsertOne, hin, hdocs, Client.Disconnect]

theorem documents_after_fresh (s : Store) (dbName collectionName : String)
    (hex : s.hasCollection dbName collectionName = false) :
    ((s.addCollection dbName collectionName).addDocument dbName collectionName
      sampleData).documents dbName collectionName = [sampleData] := by
  rw [documents_addDocument _ _ _ _ (hasCollection_addCollection s dbName collectionName),
    documents_addCollection s dbName collectionName hex]
  rfl

theorem documents_after_fresh_other (s : Store) (dbName collectionName db2 coll2 : String)
    (hne : ¬ (db2 = dbName ∧ coll2 = collectionName)) :
    ((s.addCollection dbName collectionName).addDocument dbName collectionName
      sampleData).documents db2 coll2 = s.documents db2 coll2 := by
  rw [documents_addDocument_other _ _ _ _ _ _ hne, documents_addCollection_other _ _ _ _ _ hne]

/-- Whenever the listing of the collections fails on a store that does not hold the
collection and the later calls succeed, `CreateCollectionIfNotExists` returns no error:
the failure of the listing is not returned, and the creation and the insertion are
attempted after it. -/
theorem CreateCollectionIfNotExists_listing_fails (env : Env) (dbName collectionName : String)
    (w : World) (e : String) (hc : env.connectErr = none) (hp : env.pingErr = none)
    (hl : env.listCollectionsErr = some e)
    (hcr : env.createCollectionErr = none) (hin : env.insertOneErr = none)
    (hex : w.store.hasCollection dbName collectionName = false) (client : Client) :
    (client.ListCollectionNames env dbName collectionName w).1.2 = some (.msg e) ∧
    (CreateCollectionIfNotExists env dbName collectionName w).1 = none ∧
    Event.CreateCollection dbName collectionName ∈
      (CreateCollectionIfNotExists env dbName collectionName w).2.trace ∧
    Event.InsertOne dbName collectionName ∈
      (CreateCollectionIfNotExists env dbName collectionName w).2.trace := by
  rw [CreateCollectionIfNotExists_fresh env dbName collectionName w hc hp hcr hin hex]
  refine ⟨?_, rfl, ?_, ?_⟩
  · simp [Client.ListCollectionNames, hl]
  · simp
  · simp

/-- With the default names, after `main` has initialized a store that did not hold the
collection, `connectAndRetrieveDatasets` returns exactly the seed record. -/
theorem main_default_names_seed (getenv : String → String) (w : World)
    (hend : getenv "MONGODB_ENDPOINT" ≠ "")
    (hdb : getenv "MONGODB_DATABASE" = "") (hcoll : getenv "MONGODB_COLLECTION" = "")
    (hex : w.store.hasCollection "enbuild" "MlDataset" = false) :
    (main getenv Env.reachable w).1
      = .serving { port := (loadConfig getenv).port, database := "enbuild",
                   collection := "MlDataset" } ∧
    (connectAndRetrieveDatasets Env.reachable (main getenv Env.reachable w).2).1
      = (some [seedDataset], none) := by
  have hinit := CreateCollectionIfNotExists_fresh Env.reachable "enbuild" "MlDataset" w
    rfl rfl rfl rfl hex
  have hmain : main getenv Env.reachable w =
      (.serving { port := (loadConfig getenv).port, database := "enbuild",
                  collection := "MlDataset" },
       { store := (w.store.addCollection "enbuild" "MlDataset").addDocument
           "enbuild" "MlDataset" sampleData,
         openConns := w.openConns,
         trace := w.trace ++ [.Connect, .Ping, .ListCollectionNames "enbuild" "MlDataset",
           .CreateCollection "enbuild" "MlDataset", .InsertOne "enbuild" "MlDataset",
           .Disconnect] }) := by
    simp [main, loadConfig, hend, hdb, hcoll, hinit]
  rw [hmain]
  refine ⟨rfl, ?_⟩
  have hdocs := documents_after_fresh w.store "enbuild" "MlDataset" hex
  have hret := connectAndRetrieveDatasets_decoded Env.reachable
    { store := (w.store.addCollection "enbuild" "MlDataset").addDocument
        "enbuild" "MlDataset" sampleData,
      openConns := w.openConns,
      trace := w.trace ++ [.Connect, .Ping, .ListCollectionNames "enbuild" "MlDataset",
        .CreateCollection "enbuild" "MlDataset", .InsertOne "enbuild" "MlDataset",
        .Disconnect] }
    [seedDataset] rfl rfl rfl rfl
    (by rw [hdocs]; exact List.Forall₂.cons sampleData_decoded List.Forall₂.nil)
  rw [hret]
  rfl

/-- With other names configured, after `main` has initialized a store that held neither the
configured collection nor any document in `enbuild.MlDataset`, the seed document is in the
configured collection and `connectAndRetrieveDatasets` returns no record. -/
theorem main_configured_names_not_read (getenv : String → String) (w : World)
    (hend : getenv "MONGODB_ENDPOINT" ≠ "")
    (hdb : getenv "MONGODB_DATABASE" ≠ "") (hcoll : getenv "MONGODB_COLLECTION" ≠ "")
    (hne : ¬ ("enbuild" = getenv "MONGODB_DATABASE" ∧
      "MlDataset" = getenv "MONGODB_COLLECTION"))
    (hex : w.store.hasCollection (getenv "MONGODB_DATABASE") (getenv "MONGODB_COLLECTION")
      = false)
    (hempty : w.store.documents "enbuild" "MlDataset" = []) :
    (main getenv Env.reachable w).1
      = .serving { port := (loadConfig getenv).port, database := getenv "MONGODB_DATABASE",
                   collection := getenv "MONGODB_COLLECTION" } ∧
    (main getenv Env.reachable w).2.store.documents (getenv "MONGODB_DATABASE")
      (getenv "MONGODB_COLLECTION") = [sampleData] ∧
    (connectAndRetrieveDatasets Env.reachable (main getenv Env.reachable w).2).1
      = (none, none) := by
  have hinit := CreateCollectionIfNotExists_fresh Env.reachable (getenv "MONGODB_DATABASE")
    (getenv "MONGODB_COLLECTION") w rfl rfl rfl rfl hex
  have hmain : main getenv Env.reachable w =
      (.serving { port := (loadConfig getenv).port, database := getenv "MONGODB_DATABASE",
                  collection := getenv "MONGODB_COLLECTION" },
       { store := (w.store.addCollection (getenv "MONGODB_DATABASE")
             (getenv "MONGODB_COLLECTION")).addDocument
           (getenv "MONGODB_DATABASE") (getenv "MONGODB_COLLECTION") sampleData,
         openConns := w.openConns,
         trace := w.trace ++ [.Connect, .Ping,
           .ListCollectionNames (getenv "MONGODB_DATABASE") (getenv "MONGODB_COLLECTION"),
           .CreateCollection (getenv "MONGODB_DATABASE") (getenv "MONGODB_COLLECTION"),
           .InsertOne (getenv "MONGODB_DATABASE") (getenv "MONGODB_COLLECTION"),
           .Disconnect] }) := by
    simp [main, loadConfig, hend, hdb, hcoll, hinit]
  rw [hmain]
  refine ⟨rfl, documents_after_fresh w.store _ _ hex, ?_⟩
  have hdocs := documents_after_fresh_other w.store (getenv "MONGODB_DATABASE")
    (getenv "MONGODB_COLLECTION") "enbuild" "MlDataset" hne
  rw [hempty] at hdocs
  have hret := connectAndRetrieveDatasets_decoded Env.reachable
    { store := (w.store.addCollection (getenv "MONGODB_DATABASE")
          (getenv "MONGODB_COLLECTION")).addDocument
        (getenv "MONGODB_DATABASE") (getenv "MONGODB_COLLECTION") sampleData,
      openConns := w.openConns,
      trace := w.trace ++ [.Connect, .Ping,
        .ListCollectionNames (getenv "MONGODB_DATABASE") (getenv "MONGODB_COLLECTION"),
        .CreateCollection (getenv "MONGODB_DATABASE") (getenv "MONGODB_COLLECTION"),
        .InsertOne (getenv "MONGODB_DATABASE") (getenv "MONGODB_COLLECTION"),
        .Disconnect] }
    [] rfl rfl rfl rfl (by rw [hdocs]; exact List.Forall₂.nil)
  rw [hret]
  rfl

theorem filter_after_fresh (s : Store) (dbName collectionName : String)
    (hex : s.hasCollection dbName collectionName = false) :
    ((((s.addCollection dbName collectionName).addDocument dbName collectionName
      sampleData).collections dbName).filter (fun c => c.name == collectionName)).length
      = 1 := by
  have hnone : (s.collections dbName).filter (fun c => c.name == collectionName) = [] := by
    rw [List.filter_eq_nil_iff]
    intro c hmem hcn
    have hany : s.hasCollection dbName collectionName = true := by
      unfold Store.hasCollection
      rw [List.any_eq_true]
      exact ⟨c, hmem, hcn⟩
    rw [hex] at hany
    cases hany
  have hfilter : ∀ l : List Collection,
      (l.map (fun c => if c.name == collectionName
        then { c with docs := c.docs ++ [sampleData] } else c)).filter
          (fun c => c.name == collectionName)
      = (l.filter (fun c => c.name == collectionName)).map
          (fun c => { c with docs := c.docs ++ [sampleData] }) := by
    intro l
    induction l with
    | nil => rfl
    | cons c rest ih =>
      by_cases hc : c.name = collectionName
      · simpa [List.filter_cons, hc] using ih
      · simpa [List.filter_cons, hc] using ih
  unfold Store.addDocument
  rw [if_pos (hasCollection_addCollection s dbName collectionName), collections_setCollections,
    hfilter]
  unfold Store.addCollection
  rw [collections_setCollections, List.filter_append, hnone]
  simp

/-- Idempotence of the initialization on a reachable store: with no call failing, on a
store with unique names, a second call of `CreateCollectionIfNotExists` in a row returns no
error and leaves the store as the first call left it, whether the collection existed
before the first call or not. -/
theorem CreateCollectionIfNotExists_idempotent (env : Env) (dbName collectionName : String)
    (w : World) (hc : env.connectErr = none) (hp : env.pingErr = none)
    (hl : env.listCollectionsErr = none) (hcr : env.createCollectionErr = none)
    (hin : env.insertOneErr = none) (hwf : w.store.WellFormed) :
    (CreateCollectionIfNotExists env dbName collectionName w).1 = none ∧
    (CreateCollectionIfNotExists env dbName collectionName
      (CreateCollectionIfNotExists env dbName collectionName w).2).1 = none ∧
    (CreateCollectionIfNotExists env dbName collectionName
      (CreateCollectionIfNotExists env dbName collectionName w).2).2.store
      = (CreateCollectionIfNotExists env dbName collectionName w).2.store := by
  by_cases hex : w.store.hasCollection dbName collectionName = true
  · have h1 := CreateCollectionIfNotExists_exists_eq env dbName collectionName w
      hc hp hl hwf hex
    have h2 := CreateCollectionIfNotExists_exists_eq env dbName collectionName
      { store := w.store, openConns := w.openConns,
        trace := w.trace ++ [.Connect, .Ping, .ListCollectionNames dbName collectionName,
          .Disconnect] } hc hp hl hwf hex
    rw [h1]
    dsimp only
    rw [h2]
    exact ⟨rfl, rfl, rfl⟩
  · have hex2 : w.store.hasCollection dbName collectionName = false := by
      cases h : w.store.hasCollection dbName collectionName
      · rfl
      · exact absurd h hex
    rw [CreateCollectionIfNotExists_fresh env dbName collectionName w hc hp hcr hin hex2]
    dsimp only
    have hlen := filter_after_fresh w.store dbName collectionName hex2
    refine ⟨rfl, ?_, ?_⟩ <;>
      simp [CreateCollectionIfNotExists, ConnectDB_reachable env _ hc hp,
        Client.ListCollectionNames, World.log, hl, hlen, Client.Disconnect]

end MlService
